import Mathlib

/-!
Verification of the paypal-rs order/webhook client against its source.

The development shallowly embeds the data model of `src/orders.rs`,
`src/webhooks.rs` and the body/URL construction of the request functions.
JSON values are modelled by the `Json` inductive below (the fragment needed
by these schemas: no numeric leaf occurs in any type reachable from `Order`).
Serde-derived serialization is embedded per type as `toJson` / `fromJson` /
`wfJson` (schema-matching) functions, following the field attributes of the
source (`skip_serializing_none`, `serde(default)`, `rename_all`, `rename`).
-/

/-- A JSON value (the fragment used by the embedded schemas). -/
inductive Json where
  | null : Json
  | bool : Bool → Json
  | str : String → Json
  | arr : List Json → Json
  | obj : List (String × Json) → Json

/-- Is this value the literal `null`? -/
def Json.isNull : Json → Bool
  | Json.null => true
  | _ => false

/-- First-match association lookup among a JSON object's entries,
as serde field access behaves on the entry list. -/
def lookupJ (k : String) : List (String × Json) → Option Json
  | [] => none
  | (k', v) :: rest => if k' = k then some v else lookupJ k rest

/-- Entries whose value is not the literal `null`. -/
def dropNulls : List (String × Json) → List (String × Json)
  | [] => []
  | (k, v) :: rest => if v.isNull then dropNulls rest else (k, v) :: dropNulls rest

/-- Does some entry carry this key? -/
def keyMem (k : String) : List (String × Json) → Bool
  | [] => false
  | (k', _) :: rest => k' == k || keyMem k rest

/-- No key occurs twice among the entries. -/
def distinctKeysB : List (String × Json) → Bool
  | [] => true
  | (k, _) :: rest => !keyMem k rest && distinctKeysB rest

/-- Lookup that identifies a `null` value with absence. -/
def lookupNN (k : String) (kvs : List (String × Json)) : Option Json :=
  match lookupJ k kvs with
  | some v => if v.isNull then none else some v
  | none => none

/-- Every key bound in `xs` is bound to a non-null value in `ys`. -/
def subKeysNN (xs ys : List (String × Json)) : Bool :=
  xs.all (fun kv => (lookupNN kv.1 ys).isSome)

mutual

/-- JSON equivalence up to object field ordering and the identification of a
`null`-valued object member with an absent one (the normalization the spec's
round-trip property allows). -/
def jeq : Json → Json → Bool
  | Json.null, Json.null => true
  | Json.bool a, Json.bool b => a == b
  | Json.str a, Json.str b => a == b
  | Json.arr a, Json.arr b => jeqList a b
  | Json.obj a, Json.obj b => jeqEntries a (dropNulls b) && subKeysNN (dropNulls b) a
  | _, _ => false

/-- Pointwise equivalence of JSON arrays. -/
def jeqList : List Json → List Json → Bool
  | [], [] => true
  | x :: xs, y :: ys => jeq x y && jeqList xs ys
  | _, _ => false

/-- Every non-null entry of the first list has an equivalent binding in the
second (already null-free) entry list. -/
def jeqEntries : List (String × Json) → List (String × Json) → Bool
  | [], _ => true
  | (k, v) :: rest, bs =>
      (if v.isNull then true
       else match lookupJ k bs with
            | some w => jeq v w
            | none => false) && jeqEntries rest bs

end

mutual

/-- Every object reachable in the value has pairwise distinct keys. -/
def recDistinct : Json → Bool
  | Json.null => true
  | Json.bool _ => true
  | Json.str _ => true
  | Json.arr l => recDistinctList l
  | Json.obj kvs => distinctKeysB kvs && recDistinctEntries kvs

/-- `recDistinct` on every element. -/
def recDistinctList : List Json → Bool
  | [] => true
  | x :: xs => recDistinct x && recDistinctList xs

/-- `recDistinct` on every entry value. -/
def recDistinctEntries : List (String × Json) → Bool
  | [] => true
  | (_, v) :: rest => recDistinct v && recDistinctEntries rest

end

/-! ### Field-list object encoding

A serde struct serializer writes, in declaration order, one member per field;
with `skip_serializing_none` an absent optional member is omitted, without it
the member is written as `null`.  We represent the output of a struct
serializer as a list of `(key, Option Json)` field slots turned into an entry
list by `fields2entries`. -/

def fields2entries : List (String × Option Json) → List (String × Json)
  | [] => []
  | (_, none) :: rest => fields2entries rest
  | (k, some v) :: rest => (k, v) :: fields2entries rest

def lookupF (k : String) : List (String × Option Json) → Option (Option Json)
  | [] => none
  | (k', ov) :: rest => if k' = k then some ov else lookupF k rest

def keyMemF (k : String) : List (String × Option Json) → Bool
  | [] => false
  | (k', _) :: rest => k' == k || keyMemF k rest

def distinctF : List (String × Option Json) → Bool
  | [] => true
  | (k, _) :: rest => !keyMemF k rest && distinctF rest

/-- The non-null JSON value a field slot contributes, if any. -/
def nnF : Option (Option Json) → Option Json
  | some (some v) => if v.isNull then none else some v
  | _ => none

/-- Option-level JSON equivalence used to compare a field slot with the
corresponding member of a decoded object. -/
def jeqONN : Option Json → Option Json → Prop
  | none, none => True
  | some v, some w => jeq v w = true
  | _, _ => False

/-- Is this string among the declared keys? -/
def keyIn (k : String) : List String → Bool
  | [] => false
  | s :: rest => s == k || keyIn k rest

/-! ### Field decoding (mirroring serde's generated deserializers) -/

/-- A required struct field: the member must be present and decode. -/
def reqField {α : Type} (kvs : List (String × Json)) (k : String)
    (dec : Json → Option α) : Option α :=
  match lookupJ k kvs with
  | some v => dec v
  | none => none

/-- An `Option<T>` struct field: serde treats a missing member and a `null`
member as `None`, and otherwise decodes `T`. -/
def optField {α : Type} (kvs : List (String × Json)) (k : String)
    (dec : Json → Option α) : Option (Option α) :=
  match lookupJ k kvs with
  | none => some none
  | some v => if v.isNull then some none else (dec v).map some

/-- A `#[serde(default)]` struct field: a missing member yields the default. -/
def dfltField {α : Type} (kvs : List (String × Json)) (k : String)
    (dec : Json → Option α) (d : α) : Option α :=
  match lookupJ k kvs with
  | none => some d
  | some v => dec v

/-- Schema check for a required member. -/
def wfReq (kvs : List (String × Json)) (k : String) (wfF : Json → Bool) : Bool :=
  match lookupJ k kvs with
  | some v => wfF v
  | none => false

/-- Schema check for an optional member (may be absent or `null`). -/
def wfOpt (kvs : List (String × Json)) (k : String) (wfF : Json → Bool) : Bool :=
  match lookupJ k kvs with
  | none => true
  | some v => v.isNull || wfF v

/-- Round-trip bundle for one JSON codec: the encoder never produces a bare
`null`, `null` never matches the schema, and every schema-matching value
decodes to something that re-encodes equivalently. -/
def RT {α : Type} (wf : Json → Bool) (dec : Json → Option α) (enc : α → Json) : Prop :=
  (∀ x, (enc x).isNull = false) ∧ (wf Json.null = false) ∧
    ∀ j, wf j = true → ∃ x, dec j = some x ∧ jeq (enc x) j = true

/-- Encoder for an `Option` field of a struct without `skip_serializing_none`:
`None` is written as an explicit `null` member. -/
def encNullable {α : Type} (encF : α → Json) : Option α → Json
  | none => Json.null
  | some x => encF x

/-! ### Leaf codecs -/

/-- Decoder for a Rust `String` leaf. -/
def decStr : Json → Option String
  | Json.str s => some s
  | _ => none

/-- Schema check for a string leaf. -/
def wfStr : Json → Bool
  | Json.str _ => true
  | _ => false

/-! ### Enum codecs

serde's `rename_all = "SCREAMING_SNAKE_CASE"` renames a variant by the
`SnakeCase` rule of serde_derive's `internals/case.rs` (insert `_` before any
uppercase character at a positive index, lowercase everything) followed by
uppercasing.  The variant names in this crate are ASCII, for which Lean's
`Char.isUpper`/`Char.toLower`/`Char.toUpper` agree with the Rust behavior. -/

def snakeChars : Nat → List Char → List Char
  | _, [] => []
  | i, c :: cs =>
      (if 0 < i && c.isUpper then ['_', c.toLower] else [c.toLower]) ++
        snakeChars (i + 1) cs

/-- The token `#[serde(rename_all = "SCREAMING_SNAKE_CASE")]` produces for a
variant name. -/
def screamingSnake (s : String) : String :=
  String.mk ((snakeChars 0 s.data).map Char.toUpper)

/-- First-match token lookup, as serde's generated enum deserializer matches
an input string against the variant token table. -/
def assocTok {α : Type} (s : String) : List (String × α) → Option α
  | [] => none
  | (t, a) :: rest => if t = s then some a else assocTok s rest

/-- Unit-enum deserializer: the input must be a string in the token table. -/
def decTok {α : Type} (tbl : List (String × α)) : Json → Option α
  | Json.str s => assocTok s tbl
  | _ => none

/-- Schema check for a unit enum: exactly the token table. -/
def wfTok {α : Type} (tbl : List (String × α)) (j : Json) : Bool :=
  (decTok tbl j).isSome

/-! ### Array codecs -/

/-- Decode every element of a JSON array (serde's `Vec<T>` deserializer). -/
def mapOpt {α : Type} (f : Json → Option α) : List Json → Option (List α)
  | [] => some []
  | x :: xs =>
      match f x, mapOpt f xs with
      | some y, some ys => some (y :: ys)
      | _, _ => none

def decArr {α : Type} (f : Json → Option α) : Json → Option (List α)
  | Json.arr l => mapOpt f l
  | _ => none

def encArr {α : Type} (f : α → Json) (xs : List α) : Json :=
  Json.arr (xs.map f)

def wfArr (wfE : Json → Bool) : Json → Bool
  | Json.arr l => l.all wfE
  | _ => false

/-- Common shape of a struct schema check: an object with distinct keys whose
entry list satisfies the struct's field conditions. -/
def wfStruct (p : List (String × Json) → Bool) : Json → Bool
  | Json.obj kvs => distinctKeysB kvs && p kvs
  | _ => false

/-! ### The data model

Types below whose doc comment starts with `Modelled from the spec:` live in
`src/common.rs` (or in external collaborator crates), which is not among the
provided sources; they are embedded from the spec's description.  Everything
else is translated from `src/orders.rs` / `src/webhooks.rs`. -/

/-- Modelled from the spec: `Currency` is defined in `src/common.rs`, which is
not among the provided sources.  Spec §3: a currency code carried as a string
(three-character ISO-4217). -/
structure Currency where
  code : String

def Currency.fromJson (j : Json) : Option Currency := (decStr j).map Currency.mk

def Currency.toJson (c : Currency) : Json := Json.str c.code

def Currency.wfJson : Json → Bool := wfStr

/-- Modelled from the spec: `Address` is defined in `src/common.rs`, which is
not among the provided sources, and the spec does not enumerate its fields
("the address of the payer"); it is embedded as an opaque JSON object. -/
structure Address where
  entries : List (String × Json)

def Address.fromJson : Json → Option Address
  | Json.obj kvs => some (Address.mk kvs)
  | _ => none

def Address.toJson (a : Address) : Json := Json.obj a.entries

def Address.wfJson : Json → Bool := wfStruct recDistinctEntries

/-- Modelled from the spec: `LinkDescription` is defined in `src/common.rs`,
which is not among the provided sources; the spec describes the `links`
members only as "request-related HATEOAS links", so it is embedded as an
opaque JSON object. -/
structure LinkDescription where
  entries : List (String × Json)

def LinkDescription.fromJson : Json → Option LinkDescription
  | Json.obj kvs => some (LinkDescription.mk kvs)
  | _ => none

def LinkDescription.toJson (l : LinkDescription) : Json := Json.obj l.entries

def LinkDescription.wfJson : Json → Bool := wfStruct recDistinctEntries

/-- Modelled from the spec: `PhoneType` is defined in `src/common.rs`, which
is not among the provided sources; the spec names it only as "the phone
type", an enum token, so the embedding keeps the token string. -/
structure PhoneType where
  token : String

def PhoneType.fromJson (j : Json) : Option PhoneType := (decStr j).map PhoneType.mk

def PhoneType.toJson (p : PhoneType) : Json := Json.str p.token

def PhoneType.wfJson : Json → Bool := wfStr

/-- Modelled from the spec: `Money` is defined in `src/common.rs`, which is
not among the provided sources.  Spec §3: "currency code + decimal-string
value (never a floating-point type)". -/
structure Money where
  currency_code : Currency
  value : String

def Money.fromJson : Json → Option Money
  | Json.obj kvs => do
      let currency_code ← reqField kvs "currency_code" Currency.fromJson
      let value ← reqField kvs "value" decStr
      pure (Money.mk currency_code value)
  | _ => none

def Money.fields (x : Money) : List (String × Option Json) :=
  [("currency_code", some (Currency.toJson x.currency_code)),
   ("value", some (Json.str x.value))]

def Money.toJson (x : Money) : Json := Json.obj (fields2entries (Money.fields x))

def Money.jsonKeys : List String := ["currency_code", "value"]

def Money.wfJson : Json → Bool :=
  wfStruct (fun kvs =>
    kvs.all (fun kv => keyIn kv.1 Money.jsonKeys) &&
    (wfReq kvs "currency_code" Currency.wfJson &&
     wfReq kvs "value" wfStr))

/-! ### Enums of the data model -/

/-- The intent to either capture payment immediately or authorize a payment (orders.rs lines 14-25). -/
inductive Intent where
  | Capture : Intent
  | Authorize : Intent

/-- serde wire token of each variant under `SCREAMING_SNAKE_CASE`. -/
def Intent.token : Intent → String
  | Intent.Capture => screamingSnake "Capture"
  | Intent.Authorize => screamingSnake "Authorize"

def Intent.tokenTable : List (String × Intent) :=
  [(Intent.token Intent.Capture, Intent.Capture),
   (Intent.token Intent.Authorize, Intent.Authorize)]

def Intent.fromJson : Json → Option Intent := decTok Intent.tokenTable

def Intent.toJson (x : Intent) : Json := Json.str (Intent.token x)

def Intent.wfJson : Json → Bool := wfTok Intent.tokenTable

/-- The customer tax ID type (orders.rs lines 66-74); the variant names are already underscored, which the serde rename rule mangles. -/
inductive TaxIdType where
  | BR_CPF : TaxIdType
  | BR_CNPJ : TaxIdType

/-- serde wire token of each variant under `SCREAMING_SNAKE_CASE`. -/
def TaxIdType.token : TaxIdType → String
  | TaxIdType.BR_CPF => screamingSnake "BR_CPF"
  | TaxIdType.BR_CNPJ => screamingSnake "BR_CNPJ"

def TaxIdType.tokenTable : List (String × TaxIdType) :=
  [(TaxIdType.token TaxIdType.BR_CPF, TaxIdType.BR_CPF),
   (TaxIdType.token TaxIdType.BR_CNPJ, TaxIdType.BR_CNPJ)]

def TaxIdType.fromJson : Json → Option TaxIdType := decTok TaxIdType.tokenTable

def TaxIdType.toJson (x : TaxIdType) : Json := Json.str (TaxIdType.token x)

def TaxIdType.wfJson : Json → Bool := wfTok TaxIdType.tokenTable

/-- The funds disbursement mode (orders.rs lines 179-187); note the source declares NO `rename_all` attribute on this enum, so serde keeps the variant names verbatim. -/
inductive DisbursementMode where
  | Instant : DisbursementMode
  | Delayed : DisbursementMode

/-- serde wire token of each variant (no `rename_all`: the variant name). -/
def DisbursementMode.token : DisbursementMode → String
  | DisbursementMode.Instant => "Instant"
  | DisbursementMode.Delayed => "Delayed"

def DisbursementMode.tokenTable : List (String × DisbursementMode) :=
  [(DisbursementMode.token DisbursementMode.Instant, DisbursementMode.Instant),
   (DisbursementMode.token DisbursementMode.Delayed, DisbursementMode.Delayed)]

def DisbursementMode.fromJson : Json → Option DisbursementMode := decTok DisbursementMode.tokenTable

def DisbursementMode.toJson (x : DisbursementMode) : Json := Json.str (DisbursementMode.token x)

def DisbursementMode.wfJson : Json → Bool := wfTok DisbursementMode.tokenTable

/-- The item category type (orders.rs lines 206-215). -/
inductive ItemCategoryType where
  | Digital : ItemCategoryType
  | Physical : ItemCategoryType

/-- serde wire token of each variant under `SCREAMING_SNAKE_CASE`. -/
def ItemCategoryType.token : ItemCategoryType → String
  | ItemCategoryType.Digital => screamingSnake "Digital"
  | ItemCategoryType.Physical => screamingSnake "Physical"

def ItemCategoryType.tokenTable : List (String × ItemCategoryType) :=
  [(ItemCategoryType.token ItemCategoryType.Digital, ItemCategoryType.Digital),
   (ItemCategoryType.token ItemCategoryType.Physical, ItemCategoryType.Physical)]

def ItemCategoryType.fromJson : Json → Option ItemCategoryType := decTok ItemCategoryType.tokenTable

def ItemCategoryType.toJson (x : ItemCategoryType) : Json := Json.str (ItemCategoryType.token x)

def ItemCategoryType.wfJson : Json → Bool := wfTok ItemCategoryType.tokenTable

/-- The status of a payment authorization (orders.rs lines 255-274). -/
inductive AuthorizationStatus where
  | Created : AuthorizationStatus
  | Captured : AuthorizationStatus
  | Denied : AuthorizationStatus
  | Expired : AuthorizationStatus
  | PartiallyExpired : AuthorizationStatus
  | PartiallyCaptured : AuthorizationStatus
  | Voided : AuthorizationStatus
  | Pending : AuthorizationStatus

/-- serde wire token of each variant under `SCREAMING_SNAKE_CASE`. -/
def AuthorizationStatus.token : AuthorizationStatus → String
  | AuthorizationStatus.Created => screamingSnake "Created"
  | AuthorizationStatus.Captured => screamingSnake "Captured"
  | AuthorizationStatus.Denied => screamingSnake "Denied"
  | AuthorizationStatus.Expired => screamingSnake "Expired"
  | AuthorizationStatus.PartiallyExpired => screamingSnake "PartiallyExpired"
  | AuthorizationStatus.PartiallyCaptured => screamingSnake "PartiallyCaptured"
  | AuthorizationStatus.Voided => screamingSnake "Voided"
  | AuthorizationStatus.Pending => screamingSnake "Pending"

def AuthorizationStatus.tokenTable : List (String × AuthorizationStatus) :=
  [(AuthorizationStatus.token AuthorizationStatus.Created, AuthorizationStatus.Created),
   (AuthorizationStatus.token AuthorizationStatus.Captured, AuthorizationStatus.Captured),
   (AuthorizationStatus.token AuthorizationStatus.Denied, AuthorizationStatus.Denied),
   (AuthorizationStatus.token AuthorizationStatus.Expired, AuthorizationStatus.Expired),
   (AuthorizationStatus.token AuthorizationStatus.PartiallyExpired, AuthorizationStatus.PartiallyExpired),
   (AuthorizationStatus.token AuthorizationStatus.PartiallyCaptured, AuthorizationStatus.PartiallyCaptured),
   (AuthorizationStatus.token AuthorizationStatus.Voided, AuthorizationStatus.Voided),
   (AuthorizationStatus.token AuthorizationStatus.Pending, AuthorizationStatus.Pending)]

def AuthorizationStatus.fromJson : Json → Option AuthorizationStatus := decTok AuthorizationStatus.tokenTable

def AuthorizationStatus.toJson (x : AuthorizationStatus) : Json := Json.str (AuthorizationStatus.token x)

def AuthorizationStatus.wfJson : Json → Bool := wfTok AuthorizationStatus.tokenTable

/-- Authorization status reason (orders.rs lines 277-282). -/
inductive AuthorizationStatusDetailsReason where
  | PendingReview : AuthorizationStatusDetailsReason

/-- serde wire token of each variant under `SCREAMING_SNAKE_CASE`. -/
def AuthorizationStatusDetailsReason.token : AuthorizationStatusDetailsReason → String
  | AuthorizationStatusDetailsReason.PendingReview => screamingSnake "PendingReview"

def AuthorizationStatusDetailsReason.tokenTable : List (String × AuthorizationStatusDetailsReason) :=
  [(AuthorizationStatusDetailsReason.token AuthorizationStatusDetailsReason.PendingReview, AuthorizationStatusDetailsReason.PendingReview)]

def AuthorizationStatusDetailsReason.fromJson : Json → Option AuthorizationStatusDetailsReason := decTok AuthorizationStatusDetailsReason.tokenTable

def AuthorizationStatusDetailsReason.toJson (x : AuthorizationStatusDetailsReason) : Json := Json.str (AuthorizationStatusDetailsReason.token x)

def AuthorizationStatusDetailsReason.wfJson : Json → Bool := wfTok AuthorizationStatusDetailsReason.tokenTable

/-- The capture status (orders.rs lines 301-314). -/
inductive CaptureStatus where
  | Completed : CaptureStatus
  | Declined : CaptureStatus
  | PartiallyRefunded : CaptureStatus
  | Pending : CaptureStatus
  | Refunded : CaptureStatus

/-- serde wire token of each variant under `SCREAMING_SNAKE_CASE`. -/
def CaptureStatus.token : CaptureStatus → String
  | CaptureStatus.Completed => screamingSnake "Completed"
  | CaptureStatus.Declined => screamingSnake "Declined"
  | CaptureStatus.PartiallyRefunded => screamingSnake "PartiallyRefunded"
  | CaptureStatus.Pending => screamingSnake "Pending"
  | CaptureStatus.Refunded => screamingSnake "Refunded"

def CaptureStatus.tokenTable : List (String × CaptureStatus) :=
  [(CaptureStatus.token CaptureStatus.Completed, CaptureStatus.Completed),
   (CaptureStatus.token CaptureStatus.Declined, CaptureStatus.Declined),
   (CaptureStatus.token CaptureStatus.PartiallyRefunded, CaptureStatus.PartiallyRefunded),
   (CaptureStatus.token CaptureStatus.Pending, CaptureStatus.Pending),
   (CaptureStatus.token CaptureStatus.Refunded, CaptureStatus.Refunded)]

def CaptureStatus.fromJson : Json → Option CaptureStatus := decTok CaptureStatus.tokenTable

def CaptureStatus.toJson (x : CaptureStatus) : Json := Json.str (CaptureStatus.token x)

def CaptureStatus.wfJson : Json → Bool := wfTok CaptureStatus.tokenTable

/-- Capture status reason (orders.rs lines 317-346). -/
inductive CaptureStatusDetailsReason where
  | BuyerComplaint : CaptureStatusDetailsReason
  | Chargeback : CaptureStatusDetailsReason
  | Echeck : CaptureStatusDetailsReason
  | InternationalWithdrawal : CaptureStatusDetailsReason
  | Other : CaptureStatusDetailsReason
  | PendingReview : CaptureStatusDetailsReason
  | ReceivingPreferenceMandatesManualAction : CaptureStatusDetailsReason
  | Refunded : CaptureStatusDetailsReason
  | TransactionApprovedAwaitingFunding : CaptureStatusDetailsReason
  | Unilateral : CaptureStatusDetailsReason
  | VerificationRequired : CaptureStatusDetailsReason

/-- serde wire token of each variant under `SCREAMING_SNAKE_CASE`. -/
def CaptureStatusDetailsReason.token : CaptureStatusDetailsReason → String
  | CaptureStatusDetailsReason.BuyerComplaint => screamingSnake "BuyerComplaint"
  | CaptureStatusDetailsReason.Chargeback => screamingSnake "Chargeback"
  | CaptureStatusDetailsReason.Echeck => screamingSnake "Echeck"
  | CaptureStatusDetailsReason.InternationalWithdrawal => screamingSnake "InternationalWithdrawal"
  | CaptureStatusDetailsReason.Other => screamingSnake "Other"
  | CaptureStatusDetailsReason.PendingReview => screamingSnake "PendingReview"
  | CaptureStatusDetailsReason.ReceivingPreferenceMandatesManualAction => screamingSnake "ReceivingPreferenceMandatesManualAction"
  | CaptureStatusDetailsReason.Refunded => screamingSnake "Refunded"
  | CaptureStatusDetailsReason.TransactionApprovedAwaitingFunding => screamingSnake "TransactionApprovedAwaitingFunding"
  | CaptureStatusDetailsReason.Unilateral => screamingSnake "Unilateral"
  | CaptureStatusDetailsReason.VerificationRequired => screamingSnake "VerificationRequired"

def CaptureStatusDetailsReason.tokenTable : List (String × CaptureStatusDetailsReason) :=
  [(CaptureStatusDetailsReason.token CaptureStatusDetailsReason.BuyerComplaint, CaptureStatusDetailsReason.BuyerComplaint),
   (CaptureStatusDetailsReason.token CaptureStatusDetailsReason.Chargeback, CaptureStatusDetailsReason.Chargeback),
   (CaptureStatusDetailsReason.token CaptureStatusDetailsReason.Echeck, CaptureStatusDetailsReason.Echeck),
   (CaptureStatusDetailsReason.token CaptureStatusDetailsReason.InternationalWithdrawal, CaptureStatusDetailsReason.InternationalWithdrawal),
   (CaptureStatusDetailsReason.token CaptureStatusDetailsReason.Other, CaptureStatusDetailsReason.Other),
   (CaptureStatusDetailsReason.token CaptureStatusDetailsReason.PendingReview, CaptureStatusDetailsReason.PendingReview),
   (CaptureStatusDetailsReason.token CaptureStatusDetailsReason.ReceivingPreferenceMandatesManualAction, CaptureStatusDetailsReason.ReceivingPreferenceMandatesManualAction),
   (CaptureStatusDetailsReason.token CaptureStatusDetailsReason.Refunded, CaptureStatusDetailsReason.Refunded),
   (CaptureStatusDetailsReason.token CaptureStatusDetailsReason.TransactionApprovedAwaitingFunding, CaptureStatusDetailsReason.TransactionApprovedAwaitingFunding),
   (CaptureStatusDetailsReason.token CaptureStatusDetailsReason.Unilateral, CaptureStatusDetailsReason.Unilateral),
   (CaptureStatusDetailsReason.token CaptureStatusDetailsReason.VerificationRequired, CaptureStatusDetailsReason.VerificationRequired)]

def CaptureStatusDetailsReason.fromJson : Json → Option CaptureStatusDetailsReason := decTok CaptureStatusDetailsReason.tokenTable

def CaptureStatusDetailsReason.toJson (x : CaptureStatusDetailsReason) : Json := Json.str (CaptureStatusDetailsReason.token x)

def CaptureStatusDetailsReason.wfJson : Json → Bool := wfTok CaptureStatusDetailsReason.tokenTable

/-- The status of a refund (orders.rs lines 366-375). -/
inductive RefundStatus where
  | Cancelled : RefundStatus
  | Pending : RefundStatus
  | Completed : RefundStatus

/-- serde wire token of each variant under `SCREAMING_SNAKE_CASE`. -/
def RefundStatus.token : RefundStatus → String
  | RefundStatus.Cancelled => screamingSnake "Cancelled"
  | RefundStatus.Pending => screamingSnake "Pending"
  | RefundStatus.Completed => screamingSnake "Completed"

def RefundStatus.tokenTable : List (String × RefundStatus) :=
  [(RefundStatus.token RefundStatus.Cancelled, RefundStatus.Cancelled),
   (RefundStatus.token RefundStatus.Pending, RefundStatus.Pending),
   (RefundStatus.token RefundStatus.Completed, RefundStatus.Completed)]

def RefundStatus.fromJson : Json → Option RefundStatus := decTok RefundStatus.tokenTable

def RefundStatus.toJson (x : RefundStatus) : Json := Json.str (RefundStatus.token x)

def RefundStatus.wfJson : Json → Bool := wfTok RefundStatus.tokenTable

/-- Refund status reason (orders.rs lines 378-383). -/
inductive RefundStatusDetailsReason where
  | Echeck : RefundStatusDetailsReason

/-- serde wire token of each variant under `SCREAMING_SNAKE_CASE`. -/
def RefundStatusDetailsReason.token : RefundStatusDetailsReason → String
  | RefundStatusDetailsReason.Echeck => screamingSnake "Echeck"

def RefundStatusDetailsReason.tokenTable : List (String × RefundStatusDetailsReason) :=
  [(RefundStatusDetailsReason.token RefundStatusDetailsReason.Echeck, RefundStatusDetailsReason.Echeck)]

def RefundStatusDetailsReason.fromJson : Json → Option RefundStatusDetailsReason := decTok RefundStatusDetailsReason.tokenTable

def RefundStatusDetailsReason.toJson (x : RefundStatusDetailsReason) : Json := Json.str (RefundStatusDetailsReason.token x)

def RefundStatusDetailsReason.wfJson : Json → Bool := wfTok RefundStatusDetailsReason.tokenTable

/-- The card brand or network (orders.rs lines 609-644). -/
inductive CardBrand where
  | Visa : CardBrand
  | Mastercard : CardBrand
  | Discover : CardBrand
  | Amex : CardBrand
  | Solo : CardBrand
  | JCB : CardBrand
  | Star : CardBrand
  | Delta : CardBrand
  | Switch : CardBrand
  | Maestro : CardBrand
  | CbNationale : CardBrand
  | Configoga : CardBrand
  | Confidis : CardBrand
  | Electron : CardBrand
  | Cetelem : CardBrand
  | ChinaUnionPay : CardBrand

/-- serde wire token of each variant under `SCREAMING_SNAKE_CASE`. -/
def CardBrand.token : CardBrand → String
  | CardBrand.Visa => screamingSnake "Visa"
  | CardBrand.Mastercard => screamingSnake "Mastercard"
  | CardBrand.Discover => screamingSnake "Discover"
  | CardBrand.Amex => screamingSnake "Amex"
  | CardBrand.Solo => screamingSnake "Solo"
  | CardBrand.JCB => screamingSnake "JCB"
  | CardBrand.Star => screamingSnake "Star"
  | CardBrand.Delta => screamingSnake "Delta"
  | CardBrand.Switch => screamingSnake "Switch"
  | CardBrand.Maestro => screamingSnake "Maestro"
  | CardBrand.CbNationale => screamingSnake "CbNationale"
  | CardBrand.Configoga => screamingSnake "Configoga"
  | CardBrand.Confidis => screamingSnake "Confidis"
  | CardBrand.Electron => screamingSnake "Electron"
  | CardBrand.Cetelem => screamingSnake "Cetelem"
  | CardBrand.ChinaUnionPay => screamingSnake "ChinaUnionPay"

def CardBrand.tokenTable : List (String × CardBrand) :=
  [(CardBrand.token CardBrand.Visa, CardBrand.Visa),
   (CardBrand.token CardBrand.Mastercard, CardBrand.Mastercard),
   (CardBrand.token CardBrand.Discover, CardBrand.Discover),
   (CardBrand.token CardBrand.Amex, CardBrand.Amex),
   (CardBrand.token CardBrand.Solo, CardBrand.Solo),
   (CardBrand.token CardBrand.JCB, CardBrand.JCB),
   (CardBrand.token CardBrand.Star, CardBrand.Star),
   (CardBrand.token CardBrand.Delta, CardBrand.Delta),
   (CardBrand.token CardBrand.Switch, CardBrand.Switch),
   (CardBrand.token CardBrand.Maestro, CardBrand.Maestro),
   (CardBrand.token CardBrand.CbNationale, CardBrand.CbNationale),
   (CardBrand.token CardBrand.Configoga, CardBrand.Configoga),
   (CardBrand.token CardBrand.Confidis, CardBrand.Confidis),
   (CardBrand.token CardBrand.Electron, CardBrand.Electron),
   (CardBrand.token CardBrand.Cetelem, CardBrand.Cetelem),
   (CardBrand.token CardBrand.ChinaUnionPay, CardBrand.ChinaUnionPay)]

def CardBrand.fromJson : Json → Option CardBrand := decTok CardBrand.tokenTable

def CardBrand.toJson (x : CardBrand) : Json := Json.str (CardBrand.token x)

def CardBrand.wfJson : Json → Bool := wfTok CardBrand.tokenTable

/-- The payment card type (orders.rs lines 646-654). -/
inductive CardType where
  | Credit : CardType
  | Debit : CardType
  | Prepaid : CardType
  | Unknown : CardType

/-- serde wire token of each variant under `SCREAMING_SNAKE_CASE`. -/
def CardType.token : CardType → String
  | CardType.Credit => screamingSnake "Credit"
  | CardType.Debit => screamingSnake "Debit"
  | CardType.Prepaid => screamingSnake "Prepaid"
  | CardType.Unknown => screamingSnake "Unknown"

def CardType.tokenTable : List (String × CardType) :=
  [(CardType.token CardType.Credit, CardType.Credit),
   (CardType.token CardType.Debit, CardType.Debit),
   (CardType.token CardType.Prepaid, CardType.Prepaid),
   (CardType.token CardType.Unknown, CardType.Unknown)]

def CardType.fromJson : Json → Option CardType := decTok CardType.tokenTable

def CardType.toJson (x : CardType) : Json := Json.str (CardType.token x)

def CardType.wfJson : Json → Bool := wfTok CardType.tokenTable

/-- The status of an order (orders.rs lines 685-699). -/
inductive OrderStatus where
  | Created : OrderStatus
  | Saved : OrderStatus
  | Approved : OrderStatus
  | Voided : OrderStatus
  | Completed : OrderStatus

/-- serde wire token of each variant under `SCREAMING_SNAKE_CASE`. -/
def OrderStatus.token : OrderStatus → String
  | OrderStatus.Created => screamingSnake "Created"
  | OrderStatus.Saved => screamingSnake "Saved"
  | OrderStatus.Approved => screamingSnake "Approved"
  | OrderStatus.Voided => screamingSnake "Voided"
  | OrderStatus.Completed => screamingSnake "Completed"

def OrderStatus.tokenTable : List (String × OrderStatus) :=
  [(OrderStatus.token OrderStatus.Created, OrderStatus.Created),
   (OrderStatus.token OrderStatus.Saved, OrderStatus.Saved),
   (OrderStatus.token OrderStatus.Approved, OrderStatus.Approved),
   (OrderStatus.token OrderStatus.Voided, OrderStatus.Voided),
   (OrderStatus.token OrderStatus.Completed, OrderStatus.Completed)]

def OrderStatus.fromJson : Json → Option OrderStatus := decTok OrderStatus.tokenTable

def OrderStatus.toJson (x : OrderStatus) : Json := Json.str (OrderStatus.token x)

def OrderStatus.wfJson : Json → Bool := wfTok OrderStatus.tokenTable

/-- The webhook signature verification status (webhooks.rs lines 16-23). -/
inductive VerificationStatus where
  | Success : VerificationStatus
  | Failure : VerificationStatus

/-- serde wire token of each variant under `SCREAMING_SNAKE_CASE`. -/
def VerificationStatus.token : VerificationStatus → String
  | VerificationStatus.Success => screamingSnake "Success"
  | VerificationStatus.Failure => screamingSnake "Failure"

def VerificationStatus.tokenTable : List (String × VerificationStatus) :=
  [(VerificationStatus.token VerificationStatus.Success, VerificationStatus.Success),
   (VerificationStatus.token VerificationStatus.Failure, VerificationStatus.Failure)]

def VerificationStatus.fromJson : Json → Option VerificationStatus := decTok VerificationStatus.tokenTable

def VerificationStatus.toJson (x : VerificationStatus) : Json := Json.str (VerificationStatus.token x)

def VerificationStatus.wfJson : Json → Bool := wfTok VerificationStatus.tokenTable

/-! ### Structs of the data model -/

/-- Breakdown of the amount: item/tax/shipping sub-totals (orders.rs lines 109-128, `skip_serializing_none`). -/
structure Breakdown where
  item_total : Option Money
  shipping : Option Money
  handling : Option Money
  tax_total : Option Money
  insurance : Option Money
  shipping_discount : Option Money
  discount : Option Money

def Breakdown.fromJson : Json → Option Breakdown
  | Json.obj kvs => do
      let item_total ← optField kvs "item_total" Money.fromJson
      let shipping ← optField kvs "shipping" Money.fromJson
      let handling ← optField kvs "handling" Money.fromJson
      let tax_total ← optField kvs "tax_total" Money.fromJson
      let insurance ← optField kvs "insurance" Money.fromJson
      let shipping_discount ← optField kvs "shipping_discount" Money.fromJson
      let discount ← optField kvs "discount" Money.fromJson
      pure (Breakdown.mk item_total shipping handling tax_total insurance shipping_discount discount)
  | _ => none

def Breakdown.fields (x : Breakdown) : List (String × Option Json) :=
  [("item_total", Option.map Money.toJson x.item_total),
   ("shipping", Option.map Money.toJson x.shipping),
   ("handling", Option.map Money.toJson x.handling),
   ("tax_total", Option.map Money.toJson x.tax_total),
   ("insurance", Option.map Money.toJson x.insurance),
   ("shipping_discount", Option.map Money.toJson x.shipping_discount),
   ("discount", Option.map Money.toJson x.discount)]

def Breakdown.toJson (x : Breakdown) : Json := Json.obj (fields2entries (Breakdown.fields x))

def Breakdown.jsonKeys : List String := ["item_total", "shipping", "handling", "tax_total", "insurance", "shipping_discount", "discount"]

def Breakdown.wfJson : Json → Bool :=
  wfStruct (fun kvs =>
    kvs.all (fun kv => keyIn kv.1 Breakdown.jsonKeys) &&
    (wfOpt kvs "item_total" Money.wfJson &&
     (wfOpt kvs "shipping" Money.wfJson &&
     (wfOpt kvs "handling" Money.wfJson &&
     (wfOpt kvs "tax_total" Money.wfJson &&
     (wfOpt kvs "insurance" Money.wfJson &&
     (wfOpt kvs "shipping_discount" Money.wfJson &&
     (wfOpt kvs "discount" Money.wfJson))))))))

/-- An amount of money (orders.rs lines 130-144, `skip_serializing_none`). -/
structure Amount where
  currency_code : Currency
  value : String
  breakdown : Option Breakdown

def Amount.fromJson : Json → Option Amount
  | Json.obj kvs => do
      let currency_code ← reqField kvs "currency_code" Currency.fromJson
      let value ← reqField kvs "value" decStr
      let breakdown ← optField kvs "breakdown" Breakdown.fromJson
      pure (Amount.mk currency_code value breakdown)
  | _ => none

def Amount.fields (x : Amount) : List (String × Option Json) :=
  [("currency_code", some (Currency.toJson x.currency_code)),
   ("value", some (Json.str x.value)),
   ("breakdown", Option.map Breakdown.toJson x.breakdown)]

def Amount.toJson (x : Amount) : Json := Json.obj (fields2entries (Amount.fields x))

def Amount.jsonKeys : List String := ["currency_code", "value", "breakdown"]

def Amount.wfJson : Json → Bool :=
  wfStruct (fun kvs =>
    kvs.all (fun kv => keyIn kv.1 Amount.jsonKeys) &&
    (wfReq kvs "currency_code" Currency.wfJson &&
     (wfReq kvs "value" wfStr &&
     (wfOpt kvs "breakdown" Breakdown.wfJson))))

/-- The merchant who receives payment (orders.rs lines 157-165, `skip_serializing_none`). -/
structure Payee where
  email_address : Option String
  merchant_id : Option String

def Payee.fromJson : Json → Option Payee
  | Json.obj kvs => do
      let email_address ← optField kvs "email_address" decStr
      let merchant_id ← optField kvs "merchant_id" decStr
      pure (Payee.mk email_address merchant_id)
  | _ => none

def Payee.fields (x : Payee) : List (String × Option Json) :=
  [("email_address", Option.map Json.str x.email_address),
   ("merchant_id", Option.map Json.str x.merchant_id)]

def Payee.toJson (x : Payee) : Json := Json.obj (fields2entries (Payee.fields x))

def Payee.jsonKeys : List String := ["email_address", "merchant_id"]

def Payee.wfJson : Json → Bool :=
  wfStruct (fun kvs =>
    kvs.all (fun kv => keyIn kv.1 Payee.jsonKeys) &&
    (wfOpt kvs "email_address" wfStr &&
     (wfOpt kvs "merchant_id" wfStr)))

/-- Fees, commissions, tips, or donations (orders.rs lines 167-176, `skip_serializing_none`). -/
structure PlatformFee where
  amount : Money
  payee : Option Payee

def PlatformFee.fromJson : Json → Option PlatformFee
  | Json.obj kvs => do
      let amount ← reqField kvs "amount" Money.fromJson
      let payee ← optField kvs "payee" Payee.fromJson
      pure (PlatformFee.mk amount payee)
  | _ => none

def PlatformFee.fields (x : PlatformFee) : List (String × Option Json) :=
  [("amount", some (Money.toJson x.amount)),
   ("payee", Option.map Payee.toJson x.payee)]

def PlatformFee.toJson (x : PlatformFee) : Json := Json.obj (fields2entries (PlatformFee.fields x))

def PlatformFee.jsonKeys : List String := ["amount", "payee"]

def PlatformFee.wfJson : Json → Bool :=
  wfStruct (fun kvs =>
    kvs.all (fun kv => keyIn kv.1 PlatformFee.jsonKeys) &&
    (wfReq kvs "amount" Money.wfJson &&
     (wfOpt kvs "payee" Payee.wfJson)))

/-- Additional payment instructions (orders.rs lines 195-203, `skip_serializing_none`). -/
structure PaymentInstruction where
  platform_fees : Option (List PlatformFee)
  disbursement_mode : Option DisbursementMode

def PaymentInstruction.fromJson : Json → Option PaymentInstruction
  | Json.obj kvs => do
      let platform_fees ← optField kvs "platform_fees" (decArr PlatformFee.fromJson)
      let disbursement_mode ← optField kvs "disbursement_mode" DisbursementMode.fromJson
      pure (PaymentInstruction.mk platform_fees disbursement_mode)
  | _ => none

def PaymentInstruction.fields (x : PaymentInstruction) : List (String × Option Json) :=
  [("platform_fees", Option.map (encArr PlatformFee.toJson) x.platform_fees),
   ("disbursement_mode", Option.map DisbursementMode.toJson x.disbursement_mode)]

def PaymentInstruction.toJson (x : PaymentInstruction) : Json := Json.obj (fields2entries (PaymentInstruction.fields x))

def PaymentInstruction.jsonKeys : List String := ["platform_fees", "disbursement_mode"]

def PaymentInstruction.wfJson : Json → Bool :=
  wfStruct (fun kvs =>
    kvs.all (fun kv => keyIn kv.1 PaymentInstruction.jsonKeys) &&
    (wfOpt kvs "platform_fees" (wfArr PlatformFee.wfJson) &&
     (wfOpt kvs "disbursement_mode" DisbursementMode.wfJson)))

/-- An item the customer purchases (orders.rs lines 233-252, `skip_serializing_none`). -/
structure Item where
  name : String
  unit_amount : Money
  tax : Option Money
  quantity : String
  description : Option String
  sku : Option String
  category : Option ItemCategoryType

def Item.fromJson : Json → Option Item
  | Json.obj kvs => do
      let name ← reqField kvs "name" decStr
      let unit_amount ← reqField kvs "unit_amount" Money.fromJson
      let tax ← optField kvs "tax" Money.fromJson
      let quantity ← reqField kvs "quantity" decStr
      let description ← optField kvs "description" decStr
      let sku ← optField kvs "sku" decStr
      let category ← optField kvs "category" ItemCategoryType.fromJson
      pure (Item.mk name unit_amount tax quantity description sku category)
  | _ => none

def Item.fields (x : Item) : List (String × Option Json) :=
  [("name", some (Json.str x.name)),
   ("unit_amount", some (Money.toJson x.unit_amount)),
   ("tax", Option.map Money.toJson x.tax),
   ("quantity", some (Json.str x.quantity)),
   ("description", Option.map Json.str x.description),
   ("sku", Option.map Json.str x.sku),
   ("category", Option.map ItemCategoryType.toJson x.category)]

def Item.toJson (x : Item) : Json := Json.obj (fields2entries (Item.fields x))

def Item.jsonKeys : List String := ["name", "unit_amount", "tax", "quantity", "description", "sku", "category"]

def Item.wfJson : Json → Bool :=
  wfStruct (fun kvs =>
    kvs.all (fun kv => keyIn kv.1 Item.jsonKeys) &&
    (wfReq kvs "name" wfStr &&
     (wfReq kvs "unit_amount" Money.wfJson &&
     (wfOpt kvs "tax" Money.wfJson &&
     (wfReq kvs "quantity" wfStr &&
     (wfOpt kvs "description" wfStr &&
     (wfOpt kvs "sku" wfStr &&
     (wfOpt kvs "category" ItemCategoryType.wfJson))))))))

/-- Name and address of the person to whom to ship the items (orders.rs lines 223-231, `skip_serializing_none`). -/
structure ShippingDetail where
  name : Option String
  address : Option Address

def ShippingDetail.fromJson : Json → Option ShippingDetail
  | Json.obj kvs => do
      let name ← optField kvs "name" decStr
      let address ← optField kvs "address" Address.fromJson
      pure (ShippingDetail.mk name address)
  | _ => none

def ShippingDetail.fields (x : ShippingDetail) : List (String × Option Json) :=
  [("name", Option.map Json.str x.name),
   ("address", Option.map Address.toJson x.address)]

def ShippingDetail.toJson (x : ShippingDetail) : Json := Json.obj (fields2entries (ShippingDetail.fields x))

def ShippingDetail.jsonKeys : List String := ["name", "address"]

def ShippingDetail.wfJson : Json → Bool :=
  wfStruct (fun kvs =>
    kvs.all (fun kv => keyIn kv.1 ShippingDetail.jsonKeys) &&
    (wfOpt kvs "name" wfStr &&
     (wfOpt kvs "address" Address.wfJson)))

/-- A payer name (orders.rs lines 33-43). -/
structure PayerName where
  given_name : String
  surname : String

def PayerName.fromJson : Json → Option PayerName
  | Json.obj kvs => do
      let given_name ← reqField kvs "given_name" decStr
      let surname ← reqField kvs "surname" decStr
      pure (PayerName.mk given_name surname)
  | _ => none

def PayerName.fields (x : PayerName) : List (String × Option Json) :=
  [("given_name", some (Json.str x.given_name)),
   ("surname", some (Json.str x.surname))]

def PayerName.toJson (x : PayerName) : Json := Json.obj (fields2entries (PayerName.fields x))

def PayerName.jsonKeys : List String := ["given_name", "surname"]

def PayerName.wfJson : Json → Bool :=
  wfStruct (fun kvs =>
    kvs.all (fun kv => keyIn kv.1 PayerName.jsonKeys) &&
    (wfReq kvs "given_name" wfStr &&
     (wfReq kvs "surname" wfStr)))

/-- Phone number in E.164 format (orders.rs lines 45-52). -/
structure PhoneNumber where
  national_number : String

def PhoneNumber.fromJson : Json → Option PhoneNumber
  | Json.obj kvs => do
      let national_number ← reqField kvs "national_number" decStr
      pure (PhoneNumber.mk national_number)
  | _ => none

def PhoneNumber.fields (x : PhoneNumber) : List (String × Option Json) :=
  [("national_number", some (Json.str x.national_number))]

def PhoneNumber.toJson (x : PhoneNumber) : Json := Json.obj (fields2entries (PhoneNumber.fields x))

def PhoneNumber.jsonKeys : List String := ["national_number"]

def PhoneNumber.wfJson : Json → Bool :=
  wfStruct (fun kvs =>
    kvs.all (fun kv => keyIn kv.1 PhoneNumber.jsonKeys) &&
    (wfReq kvs "national_number" wfStr))

/-- The phone number of the customer (orders.rs lines 54-63, `skip_serializing_none`). -/
structure Phone where
  phone_type : Option PhoneType
  phone_number : PhoneNumber

def Phone.fromJson : Json → Option Phone
  | Json.obj kvs => do
      let phone_type ← optField kvs "phone_type" PhoneType.fromJson
      let phone_number ← reqField kvs "phone_number" PhoneNumber.fromJson
      pure (Phone.mk phone_type phone_number)
  | _ => none

def Phone.fields (x : Phone) : List (String × Option Json) :=
  [("phone_type", Option.map PhoneType.toJson x.phone_type),
   ("phone_number", some (PhoneNumber.toJson x.phone_number))]

def Phone.toJson (x : Phone) : Json := Json.obj (fields2entries (Phone.fields x))

def Phone.jsonKeys : List String := ["phone_type", "phone_number"]

def Phone.wfJson : Json → Bool :=
  wfStruct (fun kvs =>
    kvs.all (fun kv => keyIn kv.1 Phone.jsonKeys) &&
    (wfOpt kvs "phone_type" PhoneType.wfJson &&
     (wfReq kvs "phone_number" PhoneNumber.wfJson)))

/-- The tax information of the payer (orders.rs lines 76-84). -/
structure TaxInfo where
  tax_id : String
  tax_id_type : TaxIdType

def TaxInfo.fromJson : Json → Option TaxInfo
  | Json.obj kvs => do
      let tax_id ← reqField kvs "tax_id" decStr
      let tax_id_type ← reqField kvs "tax_id_type" TaxIdType.fromJson
      pure (TaxInfo.mk tax_id tax_id_type)
  | _ => none

def TaxInfo.fields (x : TaxInfo) : List (String × Option Json) :=
  [("tax_id", some (Json.str x.tax_id)),
   ("tax_id_type", some (TaxIdType.toJson x.tax_id_type))]

def TaxInfo.toJson (x : TaxInfo) : Json := Json.obj (fields2entries (TaxInfo.fields x))

def TaxInfo.jsonKeys : List String := ["tax_id", "tax_id_type"]

def TaxInfo.wfJson : Json → Bool :=
  wfStruct (fun kvs =>
    kvs.all (fun kv => keyIn kv.1 TaxInfo.jsonKeys) &&
    (wfReq kvs "tax_id" wfStr &&
     (wfReq kvs "tax_id_type" TaxIdType.wfJson)))

/-- The customer who approves and pays for the order (orders.rs lines 86-107, `skip_serializing_none`). -/
structure Payer where
  name : Option PayerName
  email_address : Option String
  payer_id : Option String
  phone : Option Phone
  birth_date : Option String
  tax_info : Option TaxInfo
  address : Option Address

def Payer.fromJson : Json → Option Payer
  | Json.obj kvs => do
      let name ← optField kvs "name" PayerName.fromJson
      let email_address ← optField kvs "email_address" decStr
      let payer_id ← optField kvs "payer_id" decStr
      let phone ← optField kvs "phone" Phone.fromJson
      let birth_date ← optField kvs "birth_date" decStr
      let tax_info ← optField kvs "tax_info" TaxInfo.fromJson
      let address ← optField kvs "address" Address.fromJson
      pure (Payer.mk name email_address payer_id phone birth_date tax_info address)
  | _ => none

def Payer.fields (x : Payer) : List (String × Option Json) :=
  [("name", Option.map PayerName.toJson x.name),
   ("email_address", Option.map Json.str x.email_address),
   ("payer_id", Option.map Json.str x.payer_id),
   ("phone", Option.map Phone.toJson x.phone),
   ("birth_date", Option.map Json.str x.birth_date),
   ("tax_info", Option.map TaxInfo.toJson x.tax_info),
   ("address", Option.map Address.toJson x.address)]

def Payer.toJson (x : Payer) : Json := Json.obj (fields2entries (Payer.fields x))

def Payer.jsonKeys : List String := ["name", "email_address", "payer_id", "phone", "birth_date", "tax_info", "address"]

def Payer.wfJson : Json → Bool :=
  wfStruct (fun kvs =>
    kvs.all (fun kv => keyIn kv.1 Payer.jsonKeys) &&
    (wfOpt kvs "name" PayerName.wfJson &&
     (wfOpt kvs "email_address" wfStr &&
     (wfOpt kvs "payer_id" wfStr &&
     (wfOpt kvs "phone" Phone.wfJson &&
     (wfOpt kvs "birth_date" wfStr &&
     (wfOpt kvs "tax_info" TaxInfo.wfJson &&
     (wfOpt kvs "address" Address.wfJson))))))))

/-- Details about the status of the authorization (orders.rs lines 284-289). -/
structure AuthorizationStatusDetails where
  reason : AuthorizationStatusDetailsReason

def AuthorizationStatusDetails.fromJson : Json → Option AuthorizationStatusDetails
  | Json.obj kvs => do
      let reason ← reqField kvs "reason" AuthorizationStatusDetailsReason.fromJson
      pure (AuthorizationStatusDetails.mk reason)
  | _ => none

def AuthorizationStatusDetails.fields (x : AuthorizationStatusDetails) : List (String × Option Json) :=
  [("reason", some (AuthorizationStatusDetailsReason.toJson x.reason))]

def AuthorizationStatusDetails.toJson (x : AuthorizationStatusDetails) : Json := Json.obj (fields2entries (AuthorizationStatusDetails.fields x))

def AuthorizationStatusDetails.jsonKeys : List String := ["reason"]

def AuthorizationStatusDetails.wfJson : Json → Bool :=
  wfStruct (fun kvs =>
    kvs.all (fun kv => keyIn kv.1 AuthorizationStatusDetails.jsonKeys) &&
    (wfReq kvs "reason" AuthorizationStatusDetailsReason.wfJson))

/-- A payment authorization (orders.rs lines 291-298); note `status_details` is NOT an `Option` in the source. -/
structure AuthorizationWithData where
  status : AuthorizationStatus
  status_details : AuthorizationStatusDetails

def AuthorizationWithData.fromJson : Json → Option AuthorizationWithData
  | Json.obj kvs => do
      let status ← reqField kvs "status" AuthorizationStatus.fromJson
      let status_details ← reqField kvs "status_details" AuthorizationStatusDetails.fromJson
      pure (AuthorizationWithData.mk status status_details)
  | _ => none

def AuthorizationWithData.fields (x : AuthorizationWithData) : List (String × Option Json) :=
  [("status", some (AuthorizationStatus.toJson x.status)),
   ("status_details", some (AuthorizationStatusDetails.toJson x.status_details))]

def AuthorizationWithData.toJson (x : AuthorizationWithData) : Json := Json.obj (fields2entries (AuthorizationWithData.fields x))

def AuthorizationWithData.jsonKeys : List String := ["status", "status_details"]

def AuthorizationWithData.wfJson : Json → Bool :=
  wfStruct (fun kvs =>
    kvs.all (fun kv => keyIn kv.1 AuthorizationWithData.jsonKeys) &&
    (wfReq kvs "status" AuthorizationStatus.wfJson &&
     (wfReq kvs "status_details" AuthorizationStatusDetails.wfJson)))

/-- Details about the captured payment status (orders.rs lines 348-353). -/
structure CaptureStatusDetails where
  reason : CaptureStatusDetailsReason

def CaptureStatusDetails.fromJson : Json → Option CaptureStatusDetails
  | Json.obj kvs => do
      let reason ← reqField kvs "reason" CaptureStatusDetailsReason.fromJson
      pure (CaptureStatusDetails.mk reason)
  | _ => none

def CaptureStatusDetails.fields (x : CaptureStatusDetails) : List (String × Option Json) :=
  [("reason", some (CaptureStatusDetailsReason.toJson x.reason))]

def CaptureStatusDetails.toJson (x : CaptureStatusDetails) : Json := Json.obj (fields2entries (CaptureStatusDetails.fields x))

def CaptureStatusDetails.jsonKeys : List String := ["reason"]

def CaptureStatusDetails.wfJson : Json → Bool :=
  wfStruct (fun kvs =>
    kvs.all (fun kv => keyIn kv.1 CaptureStatusDetails.jsonKeys) &&
    (wfReq kvs "reason" CaptureStatusDetailsReason.wfJson))

/-- A captured payment (orders.rs lines 355-363, `skip_serializing_none`); `status_details` IS an `Option` here. -/
structure Capture where
  status : CaptureStatus
  status_details : Option CaptureStatusDetails

def Capture.fromJson : Json → Option Capture
  | Json.obj kvs => do
      let status ← reqField kvs "status" CaptureStatus.fromJson
      let status_details ← optField kvs "status_details" CaptureStatusDetails.fromJson
      pure (Capture.mk status status_details)
  | _ => none

def Capture.fields (x : Capture) : List (String × Option Json) :=
  [("status", some (CaptureStatus.toJson x.status)),
   ("status_details", Option.map CaptureStatusDetails.toJson x.status_details)]

def Capture.toJson (x : Capture) : Json := Json.obj (fields2entries (Capture.fields x))

def Capture.jsonKeys : List String := ["status", "status_details"]

def Capture.wfJson : Json → Bool :=
  wfStruct (fun kvs =>
    kvs.all (fun kv => keyIn kv.1 Capture.jsonKeys) &&
    (wfReq kvs "status" CaptureStatus.wfJson &&
     (wfOpt kvs "status_details" CaptureStatusDetails.wfJson)))

/-- Details about the status of the refund (orders.rs lines 385-390). -/
structure RefundStatusDetails where
  reason : RefundStatusDetailsReason

def RefundStatusDetails.fromJson : Json → Option RefundStatusDetails
  | Json.obj kvs => do
      let reason ← reqField kvs "reason" RefundStatusDetailsReason.fromJson
      pure (RefundStatusDetails.mk reason)
  | _ => none

def RefundStatusDetails.fields (x : RefundStatusDetails) : List (String × Option Json) :=
  [("reason", some (RefundStatusDetailsReason.toJson x.reason))]

def RefundStatusDetails.toJson (x : RefundStatusDetails) : Json := Json.obj (fields2entries (RefundStatusDetails.fields x))

def RefundStatusDetails.jsonKeys : List String := ["reason"]

def RefundStatusDetails.wfJson : Json → Bool :=
  wfStruct (fun kvs =>
    kvs.all (fun kv => keyIn kv.1 RefundStatusDetails.jsonKeys) &&
    (wfReq kvs "reason" RefundStatusDetailsReason.wfJson))

/-- A refund (orders.rs lines 392-399); note `status_details` is NOT an `Option` in the source. -/
structure Refund where
  status : RefundStatus
  status_details : RefundStatusDetails

def Refund.fromJson : Json → Option Refund
  | Json.obj kvs => do
      let status ← reqField kvs "status" RefundStatus.fromJson
      let status_details ← reqField kvs "status_details" RefundStatusDetails.fromJson
      pure (Refund.mk status status_details)
  | _ => none

def Refund.fields (x : Refund) : List (String × Option Json) :=
  [("status", some (RefundStatus.toJson x.status)),
   ("status_details", some (RefundStatusDetails.toJson x.status_details))]

def Refund.toJson (x : Refund) : Json := Json.obj (fields2entries (Refund.fields x))

def Refund.jsonKeys : List String := ["status", "status_details"]

def Refund.wfJson : Json → Bool :=
  wfStruct (fun kvs =>
    kvs.all (fun kv => keyIn kv.1 Refund.jsonKeys) &&
    (wfReq kvs "status" RefundStatus.wfJson &&
     (wfReq kvs "status_details" RefundStatusDetails.wfJson)))

/-- The comprehensive history of payments for the purchase unit (orders.rs lines 401-413); each `Vec` field carries `#[serde(default)]`. -/
structure PaymentCollection where
  authorizations : List AuthorizationWithData
  captures : List Capture
  refunds : List Refund

def PaymentCollection.fromJson : Json → Option PaymentCollection
  | Json.obj kvs => do
      let authorizations ← dfltField kvs "authorizations" (decArr AuthorizationWithData.fromJson) []
      let captures ← dfltField kvs "captures" (decArr Capture.fromJson) []
      let refunds ← dfltField kvs "refunds" (decArr Refund.fromJson) []
      pure (PaymentCollection.mk authorizations captures refunds)
  | _ => none

def PaymentCollection.fields (x : PaymentCollection) : List (String × Option Json) :=
  [("authorizations", some ((encArr AuthorizationWithData.toJson) x.authorizations)),
   ("captures", some ((encArr Capture.toJson) x.captures)),
   ("refunds", some ((encArr Refund.toJson) x.refunds))]

def PaymentCollection.toJson (x : PaymentCollection) : Json := Json.obj (fields2entries (PaymentCollection.fields x))

def PaymentCollection.jsonKeys : List String := ["authorizations", "captures", "refunds"]

def PaymentCollection.wfJson : Json → Bool :=
  wfStruct (fun kvs =>
    kvs.all (fun kv => keyIn kv.1 PaymentCollection.jsonKeys) &&
    (wfReq kvs "authorizations" (wfArr AuthorizationWithData.wfJson) &&
     (wfReq kvs "captures" (wfArr Capture.wfJson) &&
     (wfReq kvs "refunds" (wfArr Refund.wfJson)))))

/-- A full or partial order the payer intends to purchase (orders.rs lines 415-459, `skip_serializing_none`). -/
structure PurchaseUnit where
  reference_id : Option String
  amount : Amount
  payee : Option Payee
  payment_instruction : Option PaymentInstruction
  description : Option String
  custom_id : Option String
  invoice_id : Option String
  id : Option String
  soft_descriptor : Option String
  items : Option (List Item)
  shipping : Option ShippingDetail
  payments : Option PaymentCollection

def PurchaseUnit.fromJson : Json → Option PurchaseUnit
  | Json.obj kvs => do
      let reference_id ← optField kvs "reference_id" decStr
      let amount ← reqField kvs "amount" Amount.fromJson
      let payee ← optField kvs "payee" Payee.fromJson
      let payment_instruction ← optField kvs "payment_instruction" PaymentInstruction.fromJson
      let description ← optField kvs "description" decStr
      let custom_id ← optField kvs "custom_id" decStr
      let invoice_id ← optField kvs "invoice_id" decStr
      let id ← optField kvs "id" decStr
      let soft_descriptor ← optField kvs "soft_descriptor" decStr
      let items ← optField kvs "items" (decArr Item.fromJson)
      let shipping ← optField kvs "shipping" ShippingDetail.fromJson
      let payments ← optField kvs "payments" PaymentCollection.fromJson
      pure (PurchaseUnit.mk reference_id amount payee payment_instruction description custom_id invoice_id id soft_descriptor items shipping payments)
  | _ => none

def PurchaseUnit.fields (x : PurchaseUnit) : List (String × Option Json) :=
  [("reference_id", Option.map Json.str x.reference_id),
   ("amount", some (Amount.toJson x.amount)),
   ("payee", Option.map Payee.toJson x.payee),
   ("payment_instruction", Option.map PaymentInstruction.toJson x.payment_instruction),
   ("description", Option.map Json.str x.description),
   ("custom_id", Option.map Json.str x.custom_id),
   ("invoice_id", Option.map Json.str x.invoice_id),
   ("id", Option.map Json.str x.id),
   ("soft_descriptor", Option.map Json.str x.soft_descriptor),
   ("items", Option.map (encArr Item.toJson) x.items),
   ("shipping", Option.map ShippingDetail.toJson x.shipping),
   ("payments", Option.map PaymentCollection.toJson x.payments)]

def PurchaseUnit.toJson (x : PurchaseUnit) : Json := Json.obj (fields2entries (PurchaseUnit.fields x))

def PurchaseUnit.jsonKeys : List String := ["reference_id", "amount", "payee", "payment_instruction", "description", "custom_id", "invoice_id", "id", "soft_descriptor", "items", "shipping", "payments"]

def PurchaseUnit.wfJson : Json → Bool :=
  wfStruct (fun kvs =>
    kvs.all (fun kv => keyIn kv.1 PurchaseUnit.jsonKeys) &&
    (wfOpt kvs "reference_id" wfStr &&
     (wfReq kvs "amount" Amount.wfJson &&
     (wfOpt kvs "payee" Payee.wfJson &&
     (wfOpt kvs "payment_instruction" PaymentInstruction.wfJson &&
     (wfOpt kvs "description" wfStr &&
     (wfOpt kvs "custom_id" wfStr &&
     (wfOpt kvs "invoice_id" wfStr &&
     (wfOpt kvs "id" wfStr &&
     (wfOpt kvs "soft_descriptor" wfStr &&
     (wfOpt kvs "items" (wfArr Item.wfJson) &&
     (wfOpt kvs "shipping" ShippingDetail.wfJson &&
     (wfOpt kvs "payments" PaymentCollection.wfJson)))))))))))))

/-- The payment card used to fund a payment (orders.rs lines 656-666); the `card_type` field is serialized under the key "type" via `#[serde(rename)]`. -/
structure CardResponse where
  last_digits : String
  brand : CardBrand
  card_type : CardType

def CardResponse.fromJson : Json → Option CardResponse
  | Json.obj kvs => do
      let last_digits ← reqField kvs "last_digits" decStr
      let brand ← reqField kvs "brand" CardBrand.fromJson
      let card_type ← reqField kvs "type" CardType.fromJson
      pure (CardResponse.mk last_digits brand card_type)
  | _ => none

def CardResponse.fields (x : CardResponse) : List (String × Option Json) :=
  [("last_digits", some (Json.str x.last_digits)),
   ("brand", some (CardBrand.toJson x.brand)),
   ("type", some (CardType.toJson x.card_type))]

def CardResponse.toJson (x : CardResponse) : Json := Json.obj (fields2entries (CardResponse.fields x))

def CardResponse.jsonKeys : List String := ["last_digits", "brand", "type"]

def CardResponse.wfJson : Json → Bool :=
  wfStruct (fun kvs =>
    kvs.all (fun kv => keyIn kv.1 CardResponse.jsonKeys) &&
    (wfReq kvs "last_digits" wfStr &&
     (wfReq kvs "brand" CardBrand.wfJson &&
     (wfReq kvs "type" CardType.wfJson))))

/-- The customer wallet used to fund the transaction (orders.rs lines 668-673). -/
structure WalletResponse where
  apple_pay : CardResponse

def WalletResponse.fromJson : Json → Option WalletResponse
  | Json.obj kvs => do
      let apple_pay ← reqField kvs "apple_pay" CardResponse.fromJson
      pure (WalletResponse.mk apple_pay)
  | _ => none

def WalletResponse.fields (x : WalletResponse) : List (String × Option Json) :=
  [("apple_pay", some (CardResponse.toJson x.apple_pay))]

def WalletResponse.toJson (x : WalletResponse) : Json := Json.obj (fields2entries (WalletResponse.fields x))

def WalletResponse.jsonKeys : List String := ["apple_pay"]

def WalletResponse.wfJson : Json → Bool :=
  wfStruct (fun kvs =>
    kvs.all (fun kv => keyIn kv.1 WalletResponse.jsonKeys) &&
    (wfReq kvs "apple_pay" CardResponse.wfJson))

/-- The payment source used to fund the payment (orders.rs lines 675-682); this struct has NO `skip_serializing_none`, so absent options serialize as explicit `null` members. -/
structure PaymentSourceResponse where
  card : Option CardResponse
  wallet : Option WalletResponse

def PaymentSourceResponse.fromJson : Json → Option PaymentSourceResponse
  | Json.obj kvs => do
      let card ← optField kvs "card" CardResponse.fromJson
      let wallet ← optField kvs "wallet" WalletResponse.fromJson
      pure (PaymentSourceResponse.mk card wallet)
  | _ => none

def PaymentSourceResponse.fields (x : PaymentSourceResponse) : List (String × Option Json) :=
  [("card", some (encNullable CardResponse.toJson x.card)),
   ("wallet", some (encNullable WalletResponse.toJson x.wallet))]

def PaymentSourceResponse.toJson (x : PaymentSourceResponse) : Json := Json.obj (fields2entries (PaymentSourceResponse.fields x))

def PaymentSourceResponse.jsonKeys : List String := ["card", "wallet"]

def PaymentSourceResponse.wfJson : Json → Bool :=
  wfStruct (fun kvs =>
    kvs.all (fun kv => keyIn kv.1 PaymentSourceResponse.jsonKeys) &&
    (wfOpt kvs "card" CardResponse.wfJson &&
     (wfOpt kvs "wallet" WalletResponse.wfJson)))

/-- An order: a payment between two or more parties (orders.rs lines 701-724, `skip_serializing_none`).  The two `chrono::DateTime<Utc>` timestamps are carried on the wire as RFC-3339 strings; their textual format is owned by the external chrono collaborator, so the embedding keeps the string. -/
structure Order where
  create_time : Option String
  update_time : Option String
  id : String
  payment_source : Option PaymentSourceResponse
  intent : Option Intent
  payer : Option Payer
  purchase_units : Option (List PurchaseUnit)
  status : OrderStatus
  links : List LinkDescription

def Order.fromJson : Json → Option Order
  | Json.obj kvs => do
      let create_time ← optField kvs "create_time" decStr
      let update_time ← optField kvs "update_time" decStr
      let id ← reqField kvs "id" decStr
      let payment_source ← optField kvs "payment_source" PaymentSourceResponse.fromJson
      let intent ← optField kvs "intent" Intent.fromJson
      let payer ← optField kvs "payer" Payer.fromJson
      let purchase_units ← optField kvs "purchase_units" (decArr PurchaseUnit.fromJson)
      let status ← reqField kvs "status" OrderStatus.fromJson
      let links ← reqField kvs "links" (decArr LinkDescription.fromJson)
      pure (Order.mk create_time update_time id payment_source intent payer purchase_units status links)
  | _ => none

def Order.fields (x : Order) : List (String × Option Json) :=
  [("create_time", Option.map Json.str x.create_time),
   ("update_time", Option.map Json.str x.update_time),
   ("id", some (Json.str x.id)),
   ("payment_source", Option.map PaymentSourceResponse.toJson x.payment_source),
   ("intent", Option.map Intent.toJson x.intent),
   ("payer", Option.map Payer.toJson x.payer),
   ("purchase_units", Option.map (encArr PurchaseUnit.toJson) x.purchase_units),
   ("status", some (OrderStatus.toJson x.status)),
   ("links", some ((encArr LinkDescription.toJson) x.links))]

def Order.toJson (x : Order) : Json := Json.obj (fields2entries (Order.fields x))

def Order.jsonKeys : List String := ["create_time", "update_time", "id", "payment_source", "intent", "payer", "purchase_units", "status", "links"]

def Order.wfJson : Json → Bool :=
  wfStruct (fun kvs =>
    kvs.all (fun kv => keyIn kv.1 Order.jsonKeys) &&
    (wfOpt kvs "create_time" wfStr &&
     (wfOpt kvs "update_time" wfStr &&
     (wfReq kvs "id" wfStr &&
     (wfOpt kvs "payment_source" PaymentSourceResponse.wfJson &&
     (wfOpt kvs "intent" Intent.wfJson &&
     (wfOpt kvs "payer" Payer.wfJson &&
     (wfOpt kvs "purchase_units" (wfArr PurchaseUnit.wfJson) &&
     (wfReq kvs "status" OrderStatus.wfJson &&
     (wfReq kvs "links" (wfArr LinkDescription.wfJson)))))))))))

/-! ### HTTP request layer -/

/-- HTTP method of a request (the subset used by the client). -/
inductive HttpMethod where
  | GET : HttpMethod
  | POST : HttpMethod
  | PATCH : HttpMethod

/-- Modelled from the spec: `HeaderParams` is defined in `src/client.rs`,
which is not among the provided sources.  Spec §6 names caller-suppliable
header parameters (content negotiation, idempotency, partner attribution),
and the sources under `src/` set its `content_type` field; every field
defaults to `None`. -/
structure HeaderParams where
  content_type : Option String
  prefer : Option String
  request_id : Option String
  partner_attribution_id : Option String

def HeaderParams.default : HeaderParams := HeaderParams.mk none none none none

/-- One HTTP request as assembled by a client method: the method, the URL
handed to the transport, the `HeaderParams` handed to `Client::setup_headers`
(defined in the absent `src/client.rs`), and the body text, if any. -/
structure HttpRequest where
  method : HttpMethod
  url : String
  header_params : HeaderParams
  body : Option String

/-! ### Compact JSON rendering (embeds `serde_json::to_string` for the values
the client serializes; the escape set covers the quote and backslash). -/

def escapeChars : List Char → List Char
  | [] => []
  | c :: cs =>
      if c = '"' ∨ c = '\\' then '\\' :: c :: escapeChars cs
      else c :: escapeChars cs

def renderString (s : String) : String :=
  "\"" ++ String.mk (escapeChars s.data) ++ "\""

mutual

def renderJson : Json → String
  | Json.null => "null"
  | Json.bool b => if b then "true" else "false"
  | Json.str s => renderString s
  | Json.arr l => "[" ++ renderList l ++ "]"
  | Json.obj kvs => "\x7b" ++ renderEntries kvs ++ "\x7d"

def renderList : List Json → String
  | [] => ""
  | [x] => renderJson x
  | x :: xs => renderJson x ++ "," ++ renderList xs

def renderEntries : List (String × Json) → String
  | [] => ""
  | [(k, v)] => renderString k ++ ":" ++ renderJson v
  | (k, v) :: rest => renderString k ++ ":" ++ renderJson v ++ "," ++ renderEntries rest

end

/-! ### JSON text parsing (used to state what a constructed body denotes) -/

/-- Skip JSON whitespace. -/
def skipWs : List Char → List Char
  | [] => []
  | c :: cs => if c = ' ' ∨ c = '\n' ∨ c = '\t' ∨ c = '\r' then skipWs cs else c :: cs

/-- Parse the remainder of a JSON string literal (after the opening quote),
handling backslash escapes. -/
def parseStrChars : List Char → Option (List Char × List Char)
  | [] => none
  | '"' :: rest => some ([], rest)
  | '\\' :: c :: rest =>
      (parseStrChars rest).map (fun p =>
        ((if c = 'n' then '\n' else if c = 't' then '\t' else if c = 'r' then '\r' else c) :: p.1,
         p.2))
  | c :: rest => (parseStrChars rest).map (fun p => (c :: p.1, p.2))

mutual

/-- Parse one JSON value (fuel-indexed recursive-descent parser for the
fragment the constructed bodies use). -/
def parseVal : Nat → List Char → Option (Json × List Char)
  | 0, _ => none
  | Nat.succ fuel, cs =>
      match skipWs cs with
      | '"' :: rest => (parseStrChars rest).map (fun p => (Json.str (String.mk p.1), p.2))
      | 't' :: 'r' :: 'u' :: 'e' :: rest => some (Json.bool true, rest)
      | 'f' :: 'a' :: 'l' :: 's' :: 'e' :: rest => some (Json.bool false, rest)
      | 'n' :: 'u' :: 'l' :: 'l' :: rest => some (Json.null, rest)
      | '[' :: rest =>
          (match skipWs rest with
           | ']' :: rest2 => some (Json.arr [], rest2)
           | cs2 => (parseElems fuel cs2).map (fun p => (Json.arr p.1, p.2)))
      | '\x7b' :: rest =>
          (match skipWs rest with
           | '\x7d' :: rest2 => some (Json.obj [], rest2)
           | cs2 => (parseMembers fuel cs2).map (fun p => (Json.obj p.1, p.2)))
      | _ => none

def parseElems : Nat → List Char → Option (List Json × List Char)
  | 0, _ => none
  | Nat.succ fuel, cs => do
      let p ← parseVal fuel cs
      match skipWs p.2 with
      | ',' :: rest => do
          let q ← parseElems fuel rest
          pure (p.1 :: q.1, q.2)
      | ']' :: rest => pure ([p.1], rest)
      | _ => none

def parseMembers : Nat → List Char → Option (List (String × Json) × List Char)
  | 0, _ => none
  | Nat.succ fuel, cs =>
      match skipWs cs with
      | '"' :: rest => do
          let pk ← parseStrChars rest
          match skipWs pk.2 with
          | ':' :: rest2 => do
              let pv ← parseVal fuel rest2
              match skipWs pv.2 with
              | ',' :: rest3 => do
                  let q ← parseMembers fuel rest3
                  pure ((String.mk pk.1, pv.1) :: q.1, q.2)
              | '\x7d' :: rest3 => pure ([(String.mk pk.1, pv.1)], rest3)
              | _ => none
          | _ => none
      | _ => none

end

/-- Parse a complete JSON document. -/
def jsonParse (s : String) : Option Json :=
  match parseVal (s.length + 1) s.data with
  | some (j, rest) => if (skipWs rest).isEmpty then some j else none
  | none => none

/-! ### Order operations (orders.rs `impl Client`) -/

/-- reqwest's `StatusCode::is_success`: any 2xx status. -/
def is_success (status : Nat) : Bool := 200 ≤ status && status ≤ 299

/-- Modelled from the spec: `PaypalError` is defined in `src/errors.rs`,
which is not among the provided sources.  Spec §7 describes it as "a
structured error body specific to the provider's error schema"; it is
embedded as the decoded JSON object. -/
structure PaypalError where
  entries : List (String × Json)

def PaypalError.fromJson : Json → Option PaypalError
  | Json.obj kvs => some (PaypalError.mk kvs)
  | _ => none

/-- Modelled from the spec: `ResponseError` is defined in `src/errors.rs`
(not among the provided sources).  Spec §7: two top-level error kinds —
(a) transport failure (connection, timeout, decoding the transport's own
response failed), carried here with a message, and (b) a provider-reported
API error with the structured body. -/
inductive ResponseError where
  | HttpError : String → ResponseError
  | ApiError : PaypalError → ResponseError

/-- Embeds the response classification of `Client::create_order`
(orders.rs lines 728-748): a 2xx status decodes the body as `Order` (a body
that fails to decode surfaces as a transport-level error through `?`);
any other status decodes the body as `PaypalError` wrapped in
`ResponseError::ApiError`. -/
def create_order_response (status : Nat) (body : Json) : Except ResponseError Order :=
  if is_success status then
    match Order.fromJson body with
    | some order => Except.ok order
    | none => Except.error (ResponseError.HttpError "error decoding response body")
  else
    match PaypalError.fromJson body with
    | some err => Except.error (ResponseError.ApiError err)
    | none => Except.error (ResponseError.HttpError "error decoding response body")

/-- Embeds the URL and method assembled by `Client::build_endpoint_order`
(orders.rs lines 751-778): the URL is
`format!("{}/v2/checkout/orders/{}/{}", self.endpoint(), order_id, endpoint)`
and the method is POST or GET according to the `post` flag. -/
def build_endpoint_order_request (base order_id en : String) (post : Bool)
    (header_params : HeaderParams) : HttpRequest :=
  HttpRequest.mk (if post then HttpMethod.POST else HttpMethod.GET)
    (base ++ "/v2/checkout/orders/" ++ order_id ++ "/" ++ en)
    header_params
    none

/-- `Client::show_order_details` (orders.rs lines 869-873): GET with an empty
sub-resource segment. -/
def show_order_details_request (base order_id : String) : HttpRequest :=
  build_endpoint_order_request base order_id "" false HeaderParams.default

/-- `Client::capture_order` (orders.rs lines 875-885). -/
def capture_order_request (base order_id : String) (header_params : HeaderParams) : HttpRequest :=
  build_endpoint_order_request base order_id "capture" true header_params

/-- `Client::authorize_order` (orders.rs lines 887-897). -/
def authorize_order_request (base order_id : String) (header_params : HeaderParams) : HttpRequest :=
  build_endpoint_order_request base order_id "authorize" true header_params

/-- The JSON-Patch replace-operation text `update_order` formats for the
intent (orders.rs lines 828-837), reproducing the raw-string literal's
newlines and indentation. -/
def intent_patch_op (intent : String) : String :=
  "\n                \x7b\n                    \"op\": \"replace\",\n                    \"path\": \"/intent\",\n                    \"value\": \"" ++
    intent ++ "\"\n                \x7d\n                "

/-- The per-unit replace-operation text (orders.rs lines 802-812): the path
addresses the unit by its `reference_id`, defaulting to the literal string
`default`, and the value is the serialized unit. -/
def unit_patch_op (unit : PurchaseUnit) : String :=
  "\n                \x7b\n                    \"op\": \"replace\",\n                    \"path\": \"/purchase_units/@reference_id=\x27" ++
    unit.reference_id.getD "default" ++
    "\x27\",\n                    \"value\": " ++
    renderJson (PurchaseUnit.toJson unit) ++
    "\n                \x7d\n                "

def build_units_json_aux (n : Nat) : Nat → List PurchaseUnit → String
  | _, [] => ""
  | i, unit :: rest =>
      (unit_patch_op unit ++ if i < n - 1 then "," else "") ++
        build_units_json_aux n (i + 1) rest

/-- The purchase-unit operations string built — and, through shadowing,
discarded — by the loop of `update_order` (orders.rs lines 797-820). -/
def build_units_json (p_units : List PurchaseUnit) : String :=
  build_units_json_aux p_units.length 0 p_units

/-- Embeds the PATCH body constructed by `Client::update_order`
(orders.rs lines 794-846).  The source initializes an outer immutable
`units_json` to the empty string (line 795), then builds the purchase-unit
operations into a NEW, shadowing `units_json` local declared inside the
`if let Some(p_units)` block (line 798); that local is dropped when the block
ends, so the outer binding consulted at lines 841-844 is always empty and the
body never contains the purchase-unit operations. -/
def update_order_body (intent : Option Intent)
    (purchase_units : Option (List PurchaseUnit)) : String :=
  let intent_json := ""
  let units_json := ""
  let _shadowed_units_json :=
    match purchase_units with
    | some p_units => build_units_json p_units
    | none => ""
  let intent_json :=
    match intent with
    | some x =>
        let intent_str :=
          match x with
          | Intent.Authorize => "AUTHORIZE"
          | Intent.Capture => "CAPTURE"
        intent_patch_op intent_str
    | none => intent_json
  if !intent_json.isEmpty && !units_json.isEmpty then
    "[" ++ intent_json ++ "," ++ units_json ++ "]"
  else
    "[" ++ intent_json ++ units_json ++ "]"

/-- Embeds the request assembled by `Client::update_order`
(orders.rs lines 848-860): PATCH to `/v2/checkout/orders/{id}` with a forced
`application/json` content type and the constructed body. -/
def update_order_request (base id : String) (intent : Option Intent)
    (purchase_units : Option (List PurchaseUnit)) : HttpRequest :=
  HttpRequest.mk HttpMethod.PATCH
    (base ++ "/v2/checkout/orders/" ++ id)
    (HeaderParams.mk (some "application/json") none none none)
    (some (update_order_body intent purchase_units))

/-! ### Webhooks (webhooks.rs) -/

/-- Verification represents the status of the webhook signature
(webhooks.rs lines 25-31). -/
structure Verification where
  verification_status : VerificationStatus

def Verification.fromJson : Json → Option Verification
  | Json.obj kvs => do
      let verification_status ← reqField kvs "verification_status" VerificationStatus.fromJson
      pure (Verification.mk verification_status)
  | _ => none

def Verification.toJson (v : Verification) : Json :=
  Json.obj [("verification_status", VerificationStatus.toJson v.verification_status)]

/-- Verifies a webhook signature (webhooks.rs lines 33-51).  The generic
event payload `T : Serialize` is embedded by its serialized JSON value. -/
structure WebhookVerificationPayload where
  transmission_id : String
  transmission_time : String
  cert_url : String
  auth_algo : String
  transmission_sig : String
  webhook_id : String
  webhook_event : Json

def WebhookVerificationPayload.toJson (p : WebhookVerificationPayload) : Json :=
  Json.obj [("transmission_id", Json.str p.transmission_id),
            ("transmission_time", Json.str p.transmission_time),
            ("cert_url", Json.str p.cert_url),
            ("auth_algo", Json.str p.auth_algo),
            ("transmission_sig", Json.str p.transmission_sig),
            ("webhook_id", Json.str p.webhook_id),
            ("webhook_event", p.webhook_event)]

/-- Embeds the request assembled by `Client::verify_signature`
(webhooks.rs lines 79-105): POST to
`/v1/notifications/verify-webhook-signature`; the `_header_params` argument
is never read — `setup_headers` receives a fresh `HeaderParams` whose only
set field forces the `application/json` content type — and the body is
`builder.json(&signature)`. -/
def verify_signature_request (base : String) (signature : WebhookVerificationPayload)
    (_header_params : HeaderParams) : HttpRequest :=
  HttpRequest.mk HttpMethod.POST
    (base ++ "/v1/notifications/verify-webhook-signature")
    (HeaderParams.mk (some "application/json") none none none)
    (some (renderJson (WebhookVerificationPayload.toJson signature)))

/-- Embeds the response classification of `Client::verify_signature`
(webhooks.rs lines 96-104): a 2xx status decodes the body as `Verification`;
any other status decodes the body as `PaypalError` wrapped in
`ResponseError::ApiError`. -/
def verify_signature_response (status : Nat) (body : Json) : Except ResponseError Verification :=
  if is_success status then
    match Verification.fromJson body with
    | some v => Except.ok v
    | none => Except.error (ResponseError.HttpError "error decoding response body")
  else
    match PaypalError.fromJson body with
    | some err => Except.error (ResponseError.ApiError err)
    | none => Except.error (ResponseError.HttpError "error decoding response body")

/-- A purchase unit with a declared reference id, used as a concrete input. -/
def samplePurchaseUnit : PurchaseUnit :=
  PurchaseUnit.mk (some "X1") (Amount.mk (Currency.mk "USD") "10.00" none)
    none none none none none none none none none none

/-- A schema-matching `Order` JSON document, used as a concrete input. -/
def orderFixture : Json :=
  Json.obj [("id", Json.str "5O190127TN364715T"),
            ("intent", Json.str "CAPTURE"),
            ("status", Json.str "CREATED"),
            ("links", Json.arr [])]

/-- The `Order` value the fixture document decodes to. -/
def orderFixtureOrder : Order :=
  Order.mk none none "5O190127TN364715T" none (some Intent.Capture) none none
    OrderStatus.Created []

theorem lookupJ_mem {k : String} {v : Json} :
    ∀ {kvs : List (String × Json)}, lookupJ k kvs = some v → (k, v) ∈ kvs := by
  intro kvs
  induction kvs with
  | nil => intro h; simp [lookupJ] at h
  | cons hd tl ih =>
    intro h
    obtain ⟨k', v'⟩ := hd
    simp only [lookupJ] at h
    by_cases hk : k' = k
    · subst hk
      rw [if_pos rfl] at h
      cases h
      exact List.mem_cons_self _ _
    · rw [if_neg hk] at h
      exact List.mem_cons_of_mem _ (ih h)

theorem keyMem_of_mem {k : String} {v : Json} :
    ∀ {kvs : List (String × Json)}, (k, v) ∈ kvs → keyMem k kvs = true := by
  intro kvs
  induction kvs with
  | nil => intro h; simp at h
  | cons hd tl ih =>
    intro h
    obtain ⟨k', v'⟩ := hd
    rcases List.mem_cons.mp h with h1 | h1
    · cases h1
      simp [keyMem]
    · simp [keyMem, ih h1]

theorem mem_lookupJ {k : String} {v : Json} :
    ∀ {kvs : List (String × Json)}, distinctKeysB kvs = true → (k, v) ∈ kvs →
      lookupJ k kvs = some v := by
  intro kvs
  induction kvs with
  | nil => intro _ h; simp at h
  | cons hd tl ih =>
    intro hd1 h
    obtain ⟨k', v'⟩ := hd
    simp only [distinctKeysB, Bool.and_eq_true, Bool.not_eq_true'] at hd1
    rcases List.mem_cons.mp h with h1 | h1
    · cases h1
      simp [lookupJ]
    · have hk : ¬k' = k := by
        intro he
        subst he
        rw [keyMem_of_mem h1] at hd1
        exact absurd hd1.1 (by decide)
      simp only [lookupJ, if_neg hk]
      exact ih hd1.2 h1

theorem lookupJ_none {k : String} :
    ∀ {kvs : List (String × Json)}, keyMem k kvs = false → lookupJ k kvs = none := by
  intro kvs
  induction kvs with
  | nil => intro _; rfl
  | cons hd tl ih =>
    intro h
    obtain ⟨k', v'⟩ := hd
    simp only [keyMem, Bool.or_eq_false_iff] at h
    have hk : ¬k' = k := by
      intro he
      subst he
      simp at h
    simp only [lookupJ, if_neg hk]
    exact ih h.2

theorem mem_dropNulls {kv : String × Json} :
    ∀ {kvs : List (String × Json)}, kv ∈ dropNulls kvs →
      kv ∈ kvs ∧ kv.2.isNull = false := by
  intro kvs
  induction kvs with
  | nil => intro h; simp [dropNulls] at h
  | cons hd tl ih =>
    intro h
    obtain ⟨k', v'⟩ := hd
    simp only [dropNulls] at h
    by_cases hv : v'.isNull
    · rw [if_pos hv] at h
      exact ⟨List.mem_cons_of_mem _ (ih h).1, (ih h).2⟩
    · rw [if_neg hv] at h
      rcases List.mem_cons.mp h with h1 | h1
      · subst h1
        exact ⟨List.mem_cons_self _ _, Bool.not_eq_true _ ▸ hv⟩
      · exact ⟨List.mem_cons_of_mem _ (ih h1).1, (ih h1).2⟩

theorem keyMem_dropNulls {k : String} :
    ∀ {kvs : List (String × Json)}, keyMem k kvs = false →
      keyMem k (dropNulls kvs) = false := by
  intro kvs
  induction kvs with
  | nil => intro _; rfl
  | cons hd tl ih =>
    intro h
    obtain ⟨k', v'⟩ := hd
    simp only [keyMem, Bool.or_eq_false_iff] at h
    simp only [dropNulls]
    by_cases hv : v'.isNull
    · rw [if_pos hv]
      exact ih h.2
    · rw [if_neg hv]
      simp only [keyMem, Bool.or_eq_false_iff]
      exact ⟨h.1, ih h.2⟩

theorem distinctKeysB_dropNulls :
    ∀ {kvs : List (String × Json)}, distinctKeysB kvs = true →
      distinctKeysB (dropNulls kvs) = true := by
  intro kvs
  induction kvs with
  | nil => intro _; rfl
  | cons hd tl ih =>
    intro h
    obtain ⟨k', v'⟩ := hd
    simp only [distinctKeysB, Bool.and_eq_true, Bool.not_eq_true'] at h
    simp only [dropNulls]
    by_cases hv : v'.isNull
    · rw [if_pos hv]
      exact ih h.2
    · rw [if_neg hv]
      simp only [distinctKeysB, Bool.and_eq_true, Bool.not_eq_true']
      exact ⟨keyMem_dropNulls h.1, ih h.2⟩

theorem lookupJ_dropNulls {k : String} :
    ∀ {kvs : List (String × Json)}, distinctKeysB kvs = true →
      lookupJ k (dropNulls kvs) = lookupNN k kvs := by
  intro kvs
  induction kvs with
  | nil => intro _; rfl
  | cons hd tl ih =>
    intro h
    obtain ⟨k', v'⟩ := hd
    simp only [distinctKeysB, Bool.and_eq_true, Bool.not_eq_true'] at h
    by_cases hk : k' = k
    · subst hk
      by_cases hv : v'.isNull
      · have hnone : lookupJ k' (dropNulls tl) = none :=
          lookupJ_none (keyMem_dropNulls h.1)
        simp [dropNulls, hv, lookupNN, lookupJ]
        exact hnone
      · simp [dropNulls, hv, lookupNN, lookupJ]
    · by_cases hv : v'.isNull
      · simp only [dropNulls, if_pos hv, lookupNN, lookupJ, if_neg hk]
        exact ih h.2
      · simp only [dropNulls, if_neg hv, lookupNN, lookupJ, if_neg hk]
        exact ih h.2

theorem sizeOf_mem_arr {x : Json} {l : List Json} (h : x ∈ l) :
    sizeOf x < sizeOf (Json.arr l) := by
  have h1 := List.sizeOf_lt_of_mem h
  have h2 : sizeOf (Json.arr l) = 1 + sizeOf l := by simp
  omega

theorem sizeOf_mem_obj {k : String} {v : Json} {kvs : List (String × Json)}
    (h : (k, v) ∈ kvs) : sizeOf v < sizeOf (Json.obj kvs) := by
  have h1 := List.sizeOf_lt_of_mem h
  have h2 : sizeOf (k, v) = 1 + sizeOf k + sizeOf v := by simp
  have h3 : sizeOf (Json.obj kvs) = 1 + sizeOf kvs := by simp
  omega

theorem isNull_eq_null {v : Json} (h : v.isNull = true) : v = Json.null := by
  cases v <;> simp [Json.isNull] at h ⊢

theorem recDistinct_of_mem_list {x : Json} :
    ∀ {l : List Json}, recDistinctList l = true → x ∈ l → recDistinct x = true := by
  intro l
  induction l with
  | nil => intro _ h; simp at h
  | cons y ys ih =>
    intro hl h
    simp only [recDistinctList, Bool.and_eq_true] at hl
    rcases List.mem_cons.mp h with h1 | h1
    · subst h1; exact hl.1
    · exact ih hl.2 h1

theorem recDistinct_of_mem_entries {kv : String × Json} :
    ∀ {kvs : List (String × Json)}, recDistinctEntries kvs = true → kv ∈ kvs →
      recDistinct kv.2 = true := by
  intro kvs
  induction kvs with
  | nil => intro _ h; simp at h
  | cons hd tl ih =>
    intro hl h
    obtain ⟨k', v'⟩ := hd
    simp only [recDistinctEntries, Bool.and_eq_true] at hl
    rcases List.mem_cons.mp h with h1 | h1
    · subst h1; exact hl.1
    · exact ih hl.2 h1

theorem jeqList_refl_of {l : List Json} (h : ∀ x ∈ l, jeq x x = true) :
    jeqList l l = true := by
  induction l with
  | nil => rfl
  | cons x xs ih =>
    simp only [jeqList, Bool.and_eq_true]
    exact ⟨h x (List.mem_cons_self _ _), ih (fun y hy => h y (List.mem_cons_of_mem _ hy))⟩

theorem jeqEntries_refl_of {kvs : List (String × Json)} (hd : distinctKeysB kvs = true)
    (h : ∀ kv ∈ kvs, jeq kv.2 kv.2 = true) :
    ∀ as, (∀ kv ∈ as, kv ∈ kvs) → jeqEntries as (dropNulls kvs) = true := by
  intro as
  induction as with
  | nil => intro _; rfl
  | cons kv rest ih =>
    intro hsub
    obtain ⟨k, v⟩ := kv
    simp only [jeqEntries, Bool.and_eq_true]
    refine ⟨?_, ih (fun kv2 h2 => hsub _ (List.mem_cons_of_mem _ h2))⟩
    by_cases hv : v.isNull
    · rw [if_pos hv]
    · rw [if_neg hv]
      have hmem : (k, v) ∈ kvs := hsub _ (List.mem_cons_self _ _)
      have hlk : lookupJ k (dropNulls kvs) = some v := by
        rw [lookupJ_dropNulls hd]
        simp [lookupNN, mem_lookupJ hd hmem, hv]
      rw [hlk]
      exact h _ hmem

theorem subKeysNN_dropNulls_self {kvs : List (String × Json)}
    (hd : distinctKeysB kvs = true) : subKeysNN (dropNulls kvs) kvs = true := by
  simp only [subKeysNN, List.all_eq_true]
  intro kv hkv
  obtain ⟨k, w⟩ := kv
  obtain ⟨hmem, hnn⟩ := mem_dropNulls hkv
  have hlk : lookupJ k kvs = some w := mem_lookupJ hd hmem
  have hw : w.isNull = false := hnn
  simp [lookupNN, hlk, hw]

theorem jeq_refl_aux :
    ∀ (n : Nat) (j : Json), sizeOf j ≤ n → recDistinct j = true → jeq j j = true := by
  intro n
  induction n with
  | zero =>
    intro j hj
    cases j <;> simp at hj
  | succ n ih =>
    intro j hj hr
    cases j with
    | null => rfl
    | bool b => simp [jeq]
    | str s => simp [jeq]
    | arr l =>
      simp only [jeq]
      apply jeqList_refl_of
      intro x hx
      have hs : sizeOf x ≤ n := by
        have := sizeOf_mem_arr (l := l) hx
        omega
      exact ih x hs (recDistinct_of_mem_list (by simpa [recDistinct] using hr) hx)
    | obj kvs =>
      simp only [recDistinct, Bool.and_eq_true] at hr
      simp only [jeq, Bool.and_eq_true]
      constructor
      · apply jeqEntries_refl_of hr.1
        · intro kv hkv
          obtain ⟨k, v⟩ := kv
          have hs : sizeOf v ≤ n := by
            have := sizeOf_mem_obj hkv
            omega
          exact ih v hs (recDistinct_of_mem_entries hr.2 hkv)
        · intro kv h2; exact h2
      · exact subKeysNN_dropNulls_self hr.1

/-- JSON equivalence is reflexive on values whose objects carry distinct keys. -/
theorem jeq_refl {j : Json} (h : recDistinct j = true) : jeq j j = true :=
  jeq_refl_aux (sizeOf j) j (Nat.le_refl _) h

theorem keyMemF_of_mem_fields2entries {kv : String × Json} :
    ∀ {fs : List (String × Option Json)}, kv ∈ fields2entries fs →
      keyMemF kv.1 fs = true := by
  intro fs
  induction fs with
  | nil => intro h; simp [fields2entries] at h
  | cons hd tl ih =>
    intro h
    obtain ⟨k', ov⟩ := hd
    cases ov with
    | none =>
      simp only [fields2entries] at h
      simp [keyMemF, ih h]
    | some v =>
      simp only [fields2entries] at h
      rcases List.mem_cons.mp h with h1 | h1
      · subst h1; simp [keyMemF]
      · simp [keyMemF, ih h1]

theorem keyMem_fields2entries {k : String} :
    ∀ {fs : List (String × Option Json)}, keyMemF k fs = false →
      keyMem k (fields2entries fs) = false := by
  intro fs
  induction fs with
  | nil => intro _; rfl
  | cons hd tl ih =>
    intro h
    obtain ⟨k', ov⟩ := hd
    simp only [keyMemF, Bool.or_eq_false_iff] at h
    cases ov with
    | none => simp only [fields2entries]; exact ih h.2
    | some v =>
      simp only [fields2entries, keyMem, Bool.or_eq_false_iff]
      exact ⟨h.1, ih h.2⟩

theorem distinctKeysB_fields2entries :
    ∀ {fs : List (String × Option Json)}, distinctF fs = true →
      distinctKeysB (fields2entries fs) = true := by
  intro fs
  induction fs with
  | nil => intro _; rfl
  | cons hd tl ih =>
    intro h
    obtain ⟨k', ov⟩ := hd
    simp only [distinctF, Bool.and_eq_true, Bool.not_eq_true'] at h
    cases ov with
    | none => simp only [fields2entries]; exact ih h.2
    | some v =>
      simp only [fields2entries, distinctKeysB, Bool.and_eq_true, Bool.not_eq_true']
      exact ⟨keyMem_fields2entries h.1, ih h.2⟩

theorem lookupJ_fields2entries {k : String} :
    ∀ {fs : List (String × Option Json)}, distinctF fs = true →
      lookupJ k (fields2entries fs) =
        match lookupF k fs with
        | some (some v) => some v
        | _ => none := by
  intro fs
  induction fs with
  | nil => intro _; rfl
  | cons hd tl ih =>
    intro h
    obtain ⟨k', ov⟩ := hd
    simp only [distinctF, Bool.and_eq_true, Bool.not_eq_true'] at h
    by_cases hk : k' = k
    · subst hk
      cases ov with
      | none =>
        have : lookupJ k' (fields2entries tl) = none :=
          lookupJ_none (keyMem_fields2entries h.1)
        simp [fields2entries, lookupF, this]
      | some v => simp [fields2entries, lookupF, lookupJ]
    · cases ov with
      | none => simpa [fields2entries, lookupF, hk] using ih h.2
      | some v => simpa [fields2entries, lookupF, lookupJ, hk] using ih h.2

theorem lookupNN_fields2entries {k : String} {fs : List (String × Option Json)}
    (h : distinctF fs = true) :
    lookupNN k (fields2entries fs) = nnF (lookupF k fs) := by
  rw [lookupNN, lookupJ_fields2entries h]
  match lookupF k fs with
  | none => rfl
  | some none => rfl
  | some (some v) => rfl

/-- Main generic lemma: an object built from field slots is `jeq`-equivalent to
any distinct-keyed object whose keys all belong to the declared key list and
whose non-null member values agree slot-wise. -/
theorem jeq_obj_fields {fs : List (String × Option Json)} {kvs : List (String × Json)}
    (decl : List String)
    (hfd : distinctF fs = true)
    (hkd : distinctKeysB kvs = true)
    (hdecl : ∀ s, keyMemF s fs = true → keyIn s decl = true)
    (hkeys : ∀ kv ∈ kvs, keyIn kv.1 decl = true)
    (h : ∀ k, keyIn k decl = true → jeqONN (nnF (lookupF k fs)) (lookupNN k kvs)) :
    jeq (Json.obj (fields2entries fs)) (Json.obj kvs) = true := by
  simp only [jeq, Bool.and_eq_true]
  constructor
  · have hde := distinctKeysB_fields2entries hfd
    have : ∀ as, (∀ kv ∈ as, kv ∈ fields2entries fs) →
        jeqEntries as (dropNulls kvs) = true := by
      intro as
      induction as with
      | nil => intro _; rfl
      | cons kv rest ih =>
        intro hsub
        obtain ⟨k, v⟩ := kv
        simp only [jeqEntries, Bool.and_eq_true]
        refine ⟨?_, ih (fun kv2 h2 => hsub _ (List.mem_cons_of_mem _ h2))⟩
        by_cases hv : v.isNull
        · rw [if_pos hv]
        · rw [if_neg hv]
          have hmem : (k, v) ∈ fields2entries fs := hsub _ (List.mem_cons_self _ _)
          have hlk : lookupJ k (fields2entries fs) = some v := mem_lookupJ hde hmem
          have hnn : nnF (lookupF k fs) = some v := by
            rw [← lookupNN_fields2entries hfd]
            simp [lookupNN, hlk, hv]
          have hj := h k (hdecl k (keyMemF_of_mem_fields2entries hmem))
          rw [hnn] at hj
          rw [lookupJ_dropNulls hkd]
          match hw : lookupNN k kvs with
          | some w => rw [hw] at hj; exact hj
          | none => rw [hw] at hj; exact absurd hj (by simp [jeqONN])
    exact this _ (fun kv h2 => h2)
  · simp only [subKeysNN, List.all_eq_true]
    intro kv hkv
    obtain ⟨k, w⟩ := kv
    obtain ⟨hmem, hwn⟩ := mem_dropNulls hkv
    have hlk : lookupNN k kvs = some w := by
      simp [lookupNN, mem_lookupJ hkd hmem, hwn]
    have hj := h k (hkeys _ hmem)
    rw [hlk] at hj
    rw [lookupNN_fields2entries hfd]
    match hv : nnF (lookupF k fs) with
    | some v => simp
    | none => rw [hv] at hj; exact absurd hj (by simp [jeqONN])

theorem isNull_false_of_wf {wfF : Json → Bool} {v : Json} (hn : wfF Json.null = false)
    (hv : wfF v = true) : v.isNull = false := by
  cases v
  · rw [hn] at hv; exact absurd hv (by decide)
  all_goals rfl

theorem reqField_rt {α : Type} {wfF : Json → Bool} {decF : Json → Option α}
    {encF : α → Json} (hrt : RT wfF decF encF)
    {kvs : List (String × Json)} {k : String} (h : wfReq kvs k wfF = true) :
    ∃ x, reqField kvs k decF = some x ∧
      jeqONN (nnF (some (some (encF x)))) (lookupNN k kvs) := by
  rcases hlk : lookupJ k kvs with _ | v
  · simp only [wfReq, hlk] at h
    exact absurd h (by decide)
  · simp only [wfReq, hlk] at h
    obtain ⟨x, hdec, hj⟩ := hrt.2.2 v h
    refine ⟨x, by simp [reqField, hlk, hdec], ?_⟩
    have hv : v.isNull = false := isNull_false_of_wf hrt.2.1 h
    simp [nnF, hrt.1 x, lookupNN, hlk, hv, jeqONN, hj]

theorem optField_rt {α : Type} {wfF : Json → Bool} {decF : Json → Option α}
    {encF : α → Json} (hrt : RT wfF decF encF)
    {kvs : List (String × Json)} {k : String} (h : wfOpt kvs k wfF = true) :
    ∃ o, optField kvs k decF = some o ∧
      jeqONN (nnF (some (Option.map encF o))) (lookupNN k kvs) := by
  rcases hlk : lookupJ k kvs with _ | v
  · refine ⟨none, by simp [optField, hlk], ?_⟩
    simp [nnF, lookupNN, hlk, jeqONN]
  · simp only [wfOpt, hlk] at h
    by_cases hv : v.isNull = true
    · have := isNull_eq_null hv
      subst this
      refine ⟨none, by simp [optField, hlk, Json.isNull], ?_⟩
      simp [nnF, lookupNN, hlk, jeqONN, Json.isNull]
    · have hv' : v.isNull = false := by simpa using hv
      simp only [hv', Bool.false_or] at h
      obtain ⟨x, hdec, hj⟩ := hrt.2.2 v h
      refine ⟨some x, by simp [optField, hlk, hv', hdec], ?_⟩
      simp [nnF, hrt.1 x, lookupNN, hlk, hv', jeqONN, hj]

theorem optFieldNullable_rt {α : Type} {wfF : Json → Bool} {decF : Json → Option α}
    {encF : α → Json} (hrt : RT wfF decF encF)
    {kvs : List (String × Json)} {k : String} (h : wfOpt kvs k wfF = true) :
    ∃ o, optField kvs k decF = some o ∧
      jeqONN (nnF (some (some (encNullable encF o)))) (lookupNN k kvs) := by
  rcases hlk : lookupJ k kvs with _ | v
  · refine ⟨none, by simp [optField, hlk], ?_⟩
    simp [nnF, encNullable, lookupNN, hlk, jeqONN, Json.isNull]
  · simp only [wfOpt, hlk] at h
    by_cases hv : v.isNull = true
    · have := isNull_eq_null hv
      subst this
      refine ⟨none, by simp [optField, hlk, Json.isNull], ?_⟩
      simp [nnF, encNullable, lookupNN, hlk, jeqONN, Json.isNull]
    · have hv' : v.isNull = false := by simpa using hv
      simp only [hv', Bool.false_or] at h
      obtain ⟨x, hdec, hj⟩ := hrt.2.2 v h
      refine ⟨some x, by simp [optField, hlk, hv', hdec], ?_⟩
      simp [nnF, encNullable, hrt.1 x, lookupNN, hlk, hv', jeqONN, hj]

theorem dfltField_rt {α : Type} {wfF : Json → Bool} {decF : Json → Option α}
    {encF : α → Json} (hrt : RT wfF decF encF)
    {kvs : List (String × Json)} {k : String} (d : α) (h : wfReq kvs k wfF = true) :
    ∃ x, dfltField kvs k decF d = some x ∧
      jeqONN (nnF (some (some (encF x)))) (lookupNN k kvs) := by
  rcases hlk : lookupJ k kvs with _ | v
  · simp only [wfReq, hlk] at h
    exact absurd h (by decide)
  · simp only [wfReq, hlk] at h
    obtain ⟨x, hdec, hj⟩ := hrt.2.2 v h
    refine ⟨x, by simp [dfltField, hlk, hdec], ?_⟩
    have hv : v.isNull = false := isNull_false_of_wf hrt.2.1 h
    simp [nnF, hrt.1 x, lookupNN, hlk, hv, jeqONN, hj]

theorem rt_str : RT wfStr decStr Json.str := by
  refine ⟨fun x => rfl, rfl, ?_⟩
  intro j hwf
  cases j <;> simp [wfStr] at hwf
  case str s => exact ⟨s, rfl, by simp [jeq]⟩

theorem assocTok_tok {α : Type} {tok : α → String} {s : String} {x : α} :
    ∀ {tbl : List (String × α)}, (∀ p ∈ tbl, tok p.2 = p.1) →
      assocTok s tbl = some x → tok x = s := by
  intro tbl
  induction tbl with
  | nil => intro _ h; simp [assocTok] at h
  | cons hd tl ih =>
    intro hc h
    obtain ⟨t, a⟩ := hd
    simp only [assocTok] at h
    by_cases ht : t = s
    · subst ht
      rw [if_pos rfl] at h
      cases h
      exact hc (t, x) (List.mem_cons_self _ _)
    · rw [if_neg ht] at h
      exact ih (fun p hp => hc p (List.mem_cons_of_mem _ hp)) h

theorem rt_enum {α : Type} (tok : α → String) (tbl : List (String × α))
    (hc : ∀ p ∈ tbl, tok p.2 = p.1) :
    RT (wfTok tbl) (decTok tbl) (fun x => Json.str (tok x)) := by
  refine ⟨fun x => rfl, rfl, ?_⟩
  intro j hwf
  cases j <;> simp [wfTok, decTok] at hwf
  case str s =>
    obtain ⟨x, hx⟩ := Option.isSome_iff_exists.mp hwf
    refine ⟨x, hx, ?_⟩
    have := assocTok_tok hc hx
    simp [jeq, this]

theorem rt_arr {α : Type} {wfE : Json → Bool} {decE : Json → Option α}
    {encE : α → Json} (hrt : RT wfE decE encE) :
    RT (wfArr wfE) (decArr decE) (encArr encE) := by
  refine ⟨fun x => rfl, rfl, ?_⟩
  intro j hwf
  cases j <;> simp [wfArr] at hwf
  case arr l =>
    have : ∃ xs, mapOpt decE l = some xs ∧ jeqList (xs.map encE) l = true := by
      induction l with
      | nil => exact ⟨[], rfl, rfl⟩
      | cons x xs ih =>
        obtain ⟨hx, hxs⟩ := List.forall_mem_cons.mp hwf
        obtain ⟨y, hy, hjy⟩ := hrt.2.2 x hx
        obtain ⟨ys, hys, hjys⟩ := ih hxs
        exact ⟨y :: ys, by simp [mapOpt, hy, hys], by simp [jeqList, hjy, hjys]⟩
    obtain ⟨xs, hxs, hj⟩ := this
    exact ⟨xs, by simp [decArr, hxs], by simp [encArr, jeq, hj]⟩

theorem wfStruct_elim {p : List (String × Json) → Bool} {j : Json}
    (h : wfStruct p j = true) :
    ∃ kvs, j = Json.obj kvs ∧ distinctKeysB kvs = true ∧ p kvs = true := by
  cases j <;> simp [wfStruct] at h
  case obj kvs => exact ⟨kvs, rfl, h⟩

theorem rt_Currency : RT Currency.wfJson Currency.fromJson Currency.toJson := by
  refine ⟨fun x => rfl, rfl, ?_⟩
  intro j hwf
  obtain ⟨s, hs, hj⟩ := rt_str.2.2 j hwf
  exact ⟨Currency.mk s, by simp [Currency.fromJson, hs], hj⟩

theorem rt_Address : RT Address.wfJson Address.fromJson Address.toJson := by
  refine ⟨fun x => rfl, rfl, ?_⟩
  intro j hwf
  obtain ⟨kvs, rfl, hdk, hp⟩ := wfStruct_elim hwf
  refine ⟨Address.mk kvs, rfl, ?_⟩
  exact jeq_refl (by simp [Address.toJson, recDistinct, hdk, hp])

theorem rt_LinkDescription :
    RT LinkDescription.wfJson LinkDescription.fromJson LinkDescription.toJson := by
  refine ⟨fun x => rfl, rfl, ?_⟩
  intro j hwf
  obtain ⟨kvs, rfl, hdk, hp⟩ := wfStruct_elim hwf
  refine ⟨LinkDescription.mk kvs, rfl, ?_⟩
  exact jeq_refl (by simp [LinkDescription.toJson, recDistinct, hdk, hp])

theorem rt_PhoneType : RT PhoneType.wfJson PhoneType.fromJson PhoneType.toJson := by
  refine ⟨fun x => rfl, rfl, ?_⟩
  intro j hwf
  obtain ⟨s, hs, hj⟩ := rt_str.2.2 j hwf
  exact ⟨PhoneType.mk s, by simp [PhoneType.fromJson, hs], hj⟩

theorem rt_Money : RT Money.wfJson Money.fromJson Money.toJson := by
  refine ⟨fun x => rfl, rfl, ?_⟩
  intro j hwf
  obtain ⟨kvs, rfl, hdk, hp⟩ := wfStruct_elim hwf
  simp only [Bool.and_eq_true, List.all_eq_true] at hp
  obtain ⟨hkeys, h1, h2⟩ := hp
  obtain ⟨x1, hd1, hj1⟩ := reqField_rt rt_Currency h1
  obtain ⟨x2, hd2, hj2⟩ := reqField_rt rt_str h2
  refine ⟨Money.mk x1 x2, by simp [Money.fromJson, hd1, hd2], ?_⟩
  apply jeq_obj_fields Money.jsonKeys ?hfd hdk ?hdecl hkeys ?h
  case hfd => simp [Money.fields, distinctF, keyMemF]
  case hdecl =>
    intro s hs
    simp [Money.fields, keyMemF] at hs
    rcases hs with rfl | rfl <;> simp [keyIn, Money.jsonKeys]
  case h =>
    intro k hk
    simp [keyIn, Money.jsonKeys] at hk
    rcases hk with rfl | rfl
    · simpa [Money.fields, lookupF, nnF] using hj1
    · simpa [Money.fields, lookupF, nnF] using hj2

theorem rt_Intent : RT Intent.wfJson Intent.fromJson Intent.toJson :=
  rt_enum Intent.token Intent.tokenTable (by decide)

theorem rt_TaxIdType : RT TaxIdType.wfJson TaxIdType.fromJson TaxIdType.toJson :=
  rt_enum TaxIdType.token TaxIdType.tokenTable (by decide)

theorem rt_DisbursementMode : RT DisbursementMode.wfJson DisbursementMode.fromJson DisbursementMode.toJson :=
  rt_enum DisbursementMode.token DisbursementMode.tokenTable (by decide)

theorem rt_ItemCategoryType : RT ItemCategoryType.wfJson ItemCategoryType.fromJson ItemCategoryType.toJson :=
  rt_enum ItemCategoryType.token ItemCategoryType.tokenTable (by decide)

theorem rt_AuthorizationStatus : RT AuthorizationStatus.wfJson AuthorizationStatus.fromJson AuthorizationStatus.toJson :=
  rt_enum AuthorizationStatus.token AuthorizationStatus.tokenTable (by decide)

theorem rt_AuthorizationStatusDetailsReason : RT AuthorizationStatusDetailsReason.wfJson AuthorizationStatusDetailsReason.fromJson AuthorizationStatusDetailsReason.toJson :=
  rt_enum AuthorizationStatusDetailsReason.token AuthorizationStatusDetailsReason.tokenTable (by decide)

theorem rt_CaptureStatus : RT CaptureStatus.wfJson CaptureStatus.fromJson CaptureStatus.toJson :=
  rt_enum CaptureStatus.token CaptureStatus.tokenTable (by decide)

theorem rt_CaptureStatusDetailsReason : RT CaptureStatusDetailsReason.wfJson CaptureStatusDetailsReason.fromJson CaptureStatusDetailsReason.toJson :=
  rt_enum CaptureStatusDetailsReason.token CaptureStatusDetailsReason.tokenTable (by decide)

theorem rt_RefundStatus : RT RefundStatus.wfJson RefundStatus.fromJson RefundStatus.toJson :=
  rt_enum RefundStatus.token RefundStatus.tokenTable (by decide)

theorem rt_RefundStatusDetailsReason : RT RefundStatusDetailsReason.wfJson RefundStatusDetailsReason.fromJson RefundStatusDetailsReason.toJson :=
  rt_enum RefundStatusDetailsReason.token RefundStatusDetailsReason.tokenTable (by decide)

theorem rt_CardBrand : RT CardBrand.wfJson CardBrand.fromJson CardBrand.toJson :=
  rt_enum CardBrand.token CardBrand.tokenTable (by decide)

theorem rt_CardType : RT CardType.wfJson CardType.fromJson CardType.toJson :=
  rt_enum CardType.token CardType.tokenTable (by decide)

theorem rt_OrderStatus : RT OrderStatus.wfJson OrderStatus.fromJson OrderStatus.toJson :=
  rt_enum OrderStatus.token OrderStatus.tokenTable (by decide)

theorem rt_VerificationStatus : RT VerificationStatus.wfJson VerificationStatus.fromJson VerificationStatus.toJson :=
  rt_enum VerificationStatus.token VerificationStatus.tokenTable (by decide)

theorem rt_Breakdown : RT Breakdown.wfJson Breakdown.fromJson Breakdown.toJson := by
  refine ⟨fun x => rfl, rfl, ?_⟩
  intro j hwf
  obtain ⟨kvs, rfl, hdk, hp⟩ := wfStruct_elim hwf
  simp only [Bool.and_eq_true, List.all_eq_true] at hp
  obtain ⟨hkeys, h1, h2, h3, h4, h5, h6, h7⟩ := hp
  obtain ⟨x1, hd1, hj1⟩ := optField_rt rt_Money h1
  obtain ⟨x2, hd2, hj2⟩ := optField_rt rt_Money h2
  obtain ⟨x3, hd3, hj3⟩ := optField_rt rt_Money h3
  obtain ⟨x4, hd4, hj4⟩ := optField_rt rt_Money h4
  obtain ⟨x5, hd5, hj5⟩ := optField_rt rt_Money h5
  obtain ⟨x6, hd6, hj6⟩ := optField_rt rt_Money h6
  obtain ⟨x7, hd7, hj7⟩ := optField_rt rt_Money h7
  refine ⟨Breakdown.mk x1 x2 x3 x4 x5 x6 x7, by simp [Breakdown.fromJson, hd1, hd2, hd3, hd4, hd5, hd6, hd7], ?_⟩
  apply jeq_obj_fields Breakdown.jsonKeys ?hfd hdk ?hdecl hkeys ?h
  case hfd => simp [Breakdown.fields, distinctF, keyMemF]
  case hdecl =>
    intro s hs
    simp [Breakdown.fields, keyMemF] at hs
    rcases hs with rfl | rfl | rfl | rfl | rfl | rfl | rfl <;> simp [keyIn, Breakdown.jsonKeys]
  case h =>
    intro k hk
    simp [keyIn, Breakdown.jsonKeys] at hk
    rcases hk with rfl | rfl | rfl | rfl | rfl | rfl | rfl
    · simpa [Breakdown.fields, lookupF] using hj1
    · simpa [Breakdown.fields, lookupF] using hj2
    · simpa [Breakdown.fields, lookupF] using hj3
    · simpa [Breakdown.fields, lookupF] using hj4
    · simpa [Breakdown.fields, lookupF] using hj5
    · simpa [Breakdown.fields, lookupF] using hj6
    · simpa [Breakdown.fields, lookupF] using hj7

theorem rt_Amount : RT Amount.wfJson Amount.fromJson Amount.toJson := by
  refine ⟨fun x => rfl, rfl, ?_⟩
  intro j hwf
  obtain ⟨kvs, rfl, hdk, hp⟩ := wfStruct_elim hwf
  simp only [Bool.and_eq_true, List.all_eq_true] at hp
  obtain ⟨hkeys, h1, h2, h3⟩ := hp
  obtain ⟨x1, hd1, hj1⟩ := reqField_rt rt_Currency h1
  obtain ⟨x2, hd2, hj2⟩ := reqField_rt rt_str h2
  obtain ⟨x3, hd3, hj3⟩ := optField_rt rt_Breakdown h3
  refine ⟨Amount.mk x1 x2 x3, by simp [Amount.fromJson, hd1, hd2, hd3], ?_⟩
  apply jeq_obj_fields Amount.jsonKeys ?hfd hdk ?hdecl hkeys ?h
  case hfd => simp [Amount.fields, distinctF, keyMemF]
  case hdecl =>
    intro s hs
    simp [Amount.fields, keyMemF] at hs
    rcases hs with rfl | rfl | rfl <;> simp [keyIn, Amount.jsonKeys]
  case h =>
    intro k hk
    simp [keyIn, Amount.jsonKeys] at hk
    rcases hk with rfl | rfl | rfl
    · simpa [Amount.fields, lookupF] using hj1
    · simpa [Amount.fields, lookupF] using hj2
    · simpa [Amount.fields, lookupF] using hj3

theorem rt_Payee : RT Payee.wfJson Payee.fromJson Payee.toJson := by
  refine ⟨fun x => rfl, rfl, ?_⟩
  intro j hwf
  obtain ⟨kvs, rfl, hdk, hp⟩ := wfStruct_elim hwf
  simp only [Bool.and_eq_true, List.all_eq_true] at hp
  obtain ⟨hkeys, h1, h2⟩ := hp
  obtain ⟨x1, hd1, hj1⟩ := optField_rt rt_str h1
  obtain ⟨x2, hd2, hj2⟩ := optField_rt rt_str h2
  refine ⟨Payee.mk x1 x2, by simp [Payee.fromJson, hd1, hd2], ?_⟩
  apply jeq_obj_fields Payee.jsonKeys ?hfd hdk ?hdecl hkeys ?h
  case hfd => simp [Payee.fields, distinctF, keyMemF]
  case hdecl =>
    intro s hs
    simp [Payee.fields, keyMemF] at hs
    rcases hs with rfl | rfl <;> simp [keyIn, Payee.jsonKeys]
  case h =>
    intro k hk
    simp [keyIn, Payee.jsonKeys] at hk
    rcases hk with rfl | rfl
    · simpa [Payee.fields, lookupF] using hj1
    · simpa [Payee.fields, lookupF] using hj2

theorem rt_PlatformFee : RT PlatformFee.wfJson PlatformFee.fromJson PlatformFee.toJson := by
  refine ⟨fun x => rfl, rfl, ?_⟩
  intro j hwf
  obtain ⟨kvs, rfl, hdk, hp⟩ := wfStruct_elim hwf
  simp only [Bool.and_eq_true, List.all_eq_true] at hp
  obtain ⟨hkeys, h1, h2⟩ := hp
  obtain ⟨x1, hd1, hj1⟩ := reqField_rt rt_Money h1
  obtain ⟨x2, hd2, hj2⟩ := optField_rt rt_Payee h2
  refine ⟨PlatformFee.mk x1 x2, by simp [PlatformFee.fromJson, hd1, hd2], ?_⟩
  apply jeq_obj_fields PlatformFee.jsonKeys ?hfd hdk ?hdecl hkeys ?h
  case hfd => simp [PlatformFee.fields, distinctF, keyMemF]
  case hdecl =>
    intro s hs
    simp [PlatformFee.fields, keyMemF] at hs
    rcases hs with rfl | rfl <;> simp [keyIn, PlatformFee.jsonKeys]
  case h =>
    intro k hk
    simp [keyIn, PlatformFee.jsonKeys] at hk
    rcases hk with rfl | rfl
    · simpa [PlatformFee.fields, lookupF] using hj1
    · simpa [PlatformFee.fields, lookupF] using hj2

theorem rt_PaymentInstruction : RT PaymentInstruction.wfJson PaymentInstruction.fromJson PaymentInstruction.toJson := by
  refine ⟨fun x => rfl, rfl, ?_⟩
  intro j hwf
  obtain ⟨kvs, rfl, hdk, hp⟩ := wfStruct_elim hwf
  simp only [Bool.and_eq_true, List.all_eq_true] at hp
  obtain ⟨hkeys, h1, h2⟩ := hp
  obtain ⟨x1, hd1, hj1⟩ := optField_rt (rt_arr rt_PlatformFee) h1
  obtain ⟨x2, hd2, hj2⟩ := optField_rt rt_DisbursementMode h2
  refine ⟨PaymentInstruction.mk x1 x2, by simp [PaymentInstruction.fromJson, hd1, hd2], ?_⟩
  apply jeq_obj_fields PaymentInstruction.jsonKeys ?hfd hdk ?hdecl hkeys ?h
  case hfd => simp [PaymentInstruction.fields, distinctF, keyMemF]
  case hdecl =>
    intro s hs
    simp [PaymentInstruction.fields, keyMemF] at hs
    rcases hs with rfl | rfl <;> simp [keyIn, PaymentInstruction.jsonKeys]
  case h =>
    intro k hk
    simp [keyIn, PaymentInstruction.jsonKeys] at hk
    rcases hk with rfl | rfl
    · simpa [PaymentInstruction.fields, lookupF] using hj1
    · simpa [PaymentInstruction.fields, lookupF] using hj2

theorem rt_Item : RT Item.wfJson Item.fromJson Item.toJson := by
  refine ⟨fun x => rfl, rfl, ?_⟩
  intro j hwf
  obtain ⟨kvs, rfl, hdk, hp⟩ := wfStruct_elim hwf
  simp only [Bool.and_eq_true, List.all_eq_true] at hp
  obtain ⟨hkeys, h1, h2, h3, h4, h5, h6, h7⟩ := hp
  obtain ⟨x1, hd1, hj1⟩ := reqField_rt rt_str h1
  obtain ⟨x2, hd2, hj2⟩ := reqField_rt rt_Money h2
  obtain ⟨x3, hd3, hj3⟩ := optField_rt rt_Money h3
  obtain ⟨x4, hd4, hj4⟩ := reqField_rt rt_str h4
  obtain ⟨x5, hd5, hj5⟩ := optField_rt rt_str h5
  obtain ⟨x6, hd6, hj6⟩ := optField_rt rt_str h6
  obtain ⟨x7, hd7, hj7⟩ := optField_rt rt_ItemCategoryType h7
  refine ⟨Item.mk x1 x2 x3 x4 x5 x6 x7, by simp [Item.fromJson, hd1, hd2, hd3, hd4, hd5, hd6, hd7], ?_⟩
  apply jeq_obj_fields Item.jsonKeys ?hfd hdk ?hdecl hkeys ?h
  case hfd => simp [Item.fields, distinctF, keyMemF]
  case hdecl =>
    intro s hs
    simp [Item.fields, keyMemF] at hs
    rcases hs with rfl | rfl | rfl | rfl | rfl | rfl | rfl <;> simp [keyIn, Item.jsonKeys]
  case h =>
    intro k hk
    simp [keyIn, Item.jsonKeys] at hk
    rcases hk with rfl | rfl | rfl | rfl | rfl | rfl | rfl
    · simpa [Item.fields, lookupF] using hj1
    · simpa [Item.fields, lookupF] using hj2
    · simpa [Item.fields, lookupF] using hj3
    · simpa [Item.fields, lookupF] using hj4
    · simpa [Item.fields, lookupF] using hj5
    · simpa [Item.fields, lookupF] using hj6
    · simpa [Item.fields, lookupF] using hj7

theorem rt_ShippingDetail : RT ShippingDetail.wfJson ShippingDetail.fromJson ShippingDetail.toJson := by
  refine ⟨fun x => rfl, rfl, ?_⟩
  intro j hwf
  obtain ⟨kvs, rfl, hdk, hp⟩ := wfStruct_elim hwf
  simp only [Bool.and_eq_true, List.all_eq_true] at hp
  obtain ⟨hkeys, h1, h2⟩ := hp
  obtain ⟨x1, hd1, hj1⟩ := optField_rt rt_str h1
  obtain ⟨x2, hd2, hj2⟩ := optField_rt rt_Address h2
  refine ⟨ShippingDetail.mk x1 x2, by simp [ShippingDetail.fromJson, hd1, hd2], ?_⟩
  apply jeq_obj_fields ShippingDetail.jsonKeys ?hfd hdk ?hdecl hkeys ?h
  case hfd => simp [ShippingDetail.fields, distinctF, keyMemF]
  case hdecl =>
    intro s hs
    simp [ShippingDetail.fields, keyMemF] at hs
    rcases hs with rfl | rfl <;> simp [keyIn, ShippingDetail.jsonKeys]
  case h =>
    intro k hk
    simp [keyIn, ShippingDetail.jsonKeys] at hk
    rcases hk with rfl | rfl
    · simpa [ShippingDetail.fields, lookupF] using hj1
    · simpa [ShippingDetail.fields, lookupF] using hj2

theorem rt_PayerName : RT PayerName.wfJson PayerName.fromJson PayerName.toJson := by
  refine ⟨fun x => rfl, rfl, ?_⟩
  intro j hwf
  obtain ⟨kvs, rfl, hdk, hp⟩ := wfStruct_elim hwf
  simp only [Bool.and_eq_true, List.all_eq_true] at hp
  obtain ⟨hkeys, h1, h2⟩ := hp
  obtain ⟨x1, hd1, hj1⟩ := reqField_rt rt_str h1
  obtain ⟨x2, hd2, hj2⟩ := reqField_rt rt_str h2
  refine ⟨PayerName.mk x1 x2, by simp [PayerName.fromJson, hd1, hd2], ?_⟩
  apply jeq_obj_fields PayerName.jsonKeys ?hfd hdk ?hdecl hkeys ?h
  case hfd => simp [PayerName.fields, distinctF, keyMemF]
  case hdecl =>
    intro s hs
    simp [PayerName.fields, keyMemF] at hs
    rcases hs with rfl | rfl <;> simp [keyIn, PayerName.jsonKeys]
  case h =>
    intro k hk
    simp [keyIn, PayerName.jsonKeys] at hk
    rcases hk with rfl | rfl
    · simpa [PayerName.fields, lookupF] using hj1
    · simpa [PayerName.fields, lookupF] using hj2

theorem rt_PhoneNumber : RT PhoneNumber.wfJson PhoneNumber.fromJson PhoneNumber.toJson := by
  refine ⟨fun x => rfl, rfl, ?_⟩
  intro j hwf
  obtain ⟨kvs, rfl, hdk, hp⟩ := wfStruct_elim hwf
  simp only [Bool.and_eq_true, List.all_eq_true] at hp
  obtain ⟨hkeys, h1⟩ := hp
  obtain ⟨x1, hd1, hj1⟩ := reqField_rt rt_str h1
  refine ⟨PhoneNumber.mk x1, by simp [PhoneNumber.fromJson, hd1], ?_⟩
  apply jeq_obj_fields PhoneNumber.jsonKeys ?hfd hdk ?hdecl hkeys ?h
  case hfd => simp [PhoneNumber.fields, distinctF, keyMemF]
  case hdecl =>
    intro s hs
    simp [PhoneNumber.fields, keyMemF] at hs
    rcases hs with rfl
    simp [keyIn, PhoneNumber.jsonKeys]
  case h =>
    intro k hk
    simp [keyIn, PhoneNumber.jsonKeys] at hk
    rcases hk with rfl
    · simpa [PhoneNumber.fields, lookupF] using hj1

theorem rt_Phone : RT Phone.wfJson Phone.fromJson Phone.toJson := by
  refine ⟨fun x => rfl, rfl, ?_⟩
  intro j hwf
  obtain ⟨kvs, rfl, hdk, hp⟩ := wfStruct_elim hwf
  simp only [Bool.and_eq_true, List.all_eq_true] at hp
  obtain ⟨hkeys, h1, h2⟩ := hp
  obtain ⟨x1, hd1, hj1⟩ := optField_rt rt_PhoneType h1
  obtain ⟨x2, hd2, hj2⟩ := reqField_rt rt_PhoneNumber h2
  refine ⟨Phone.mk x1 x2, by simp [Phone.fromJson, hd1, hd2], ?_⟩
  apply jeq_obj_fields Phone.jsonKeys ?hfd hdk ?hdecl hkeys ?h
  case hfd => simp [Phone.fields, distinctF, keyMemF]
  case hdecl =>
    intro s hs
    simp [Phone.fields, keyMemF] at hs
    rcases hs with rfl | rfl <;> simp [keyIn, Phone.jsonKeys]
  case h =>
    intro k hk
    simp [keyIn, Phone.jsonKeys] at hk
    rcases hk with rfl | rfl
    · simpa [Phone.fields, lookupF] using hj1
    · simpa [Phone.fields, lookupF] using hj2

theorem rt_TaxInfo : RT TaxInfo.wfJson TaxInfo.fromJson TaxInfo.toJson := by
  refine ⟨fun x => rfl, rfl, ?_⟩
  intro j hwf
  obtain ⟨kvs, rfl, hdk, hp⟩ := wfStruct_elim hwf
  simp only [Bool.and_eq_true, List.all_eq_true] at hp
  obtain ⟨hkeys, h1, h2⟩ := hp
  obtain ⟨x1, hd1, hj1⟩ := reqField_rt rt_str h1
  obtain ⟨x2, hd2, hj2⟩ := reqField_rt rt_TaxIdType h2
  refine ⟨TaxInfo.mk x1 x2, by simp [TaxInfo.fromJson, hd1, hd2], ?_⟩
  apply jeq_obj_fields TaxInfo.jsonKeys ?hfd hdk ?hdecl hkeys ?h
  case hfd => simp [TaxInfo.fields, distinctF, keyMemF]
  case hdecl =>
    intro s hs
    simp [TaxInfo.fields, keyMemF] at hs
    rcases hs with rfl | rfl <;> simp [keyIn, TaxInfo.jsonKeys]
  case h =>
    intro k hk
    simp [keyIn, TaxInfo.jsonKeys] at hk
    rcases hk with rfl | rfl
    · simpa [TaxInfo.fields, lookupF] using hj1
    · simpa [TaxInfo.fields, lookupF] using hj2

theorem rt_Payer : RT Payer.wfJson Payer.fromJson Payer.toJson := by
  refine ⟨fun x => rfl, rfl, ?_⟩
  intro j hwf
  obtain ⟨kvs, rfl, hdk, hp⟩ := wfStruct_elim hwf
  simp only [Bool.and_eq_true, List.all_eq_true] at hp
  obtain ⟨hkeys, h1, h2, h3, h4, h5, h6, h7⟩ := hp
  obtain ⟨x1, hd1, hj1⟩ := optField_rt rt_PayerName h1
  obtain ⟨x2, hd2, hj2⟩ := optField_rt rt_str h2
  obtain ⟨x3, hd3, hj3⟩ := optField_rt rt_str h3
  obtain ⟨x4, hd4, hj4⟩ := optField_rt rt_Phone h4
  obtain ⟨x5, hd5, hj5⟩ := optField_rt rt_str h5
  obtain ⟨x6, hd6, hj6⟩ := optField_rt rt_TaxInfo h6
  obtain ⟨x7, hd7, hj7⟩ := optField_rt rt_Address h7
  refine ⟨Payer.mk x1 x2 x3 x4 x5 x6 x7, by simp [Payer.fromJson, hd1, hd2, hd3, hd4, hd5, hd6, hd7], ?_⟩
  apply jeq_obj_fields Payer.jsonKeys ?hfd hdk ?hdecl hkeys ?h
  case hfd => simp [Payer.fields, distinctF, keyMemF]
  case hdecl =>
    intro s hs
    simp [Payer.fields, keyMemF] at hs
    rcases hs with rfl | rfl | rfl | rfl | rfl | rfl | rfl <;> simp [keyIn, Payer.jsonKeys]
  case h =>
    intro k hk
    simp [keyIn, Payer.jsonKeys] at hk
    rcases hk with rfl | rfl | rfl | rfl | rfl | rfl | rfl
    · simpa [Payer.fields, lookupF] using hj1
    · simpa [Payer.fields, lookupF] using hj2
    · simpa [Payer.fields, lookupF] using hj3
    · simpa [Payer.fields, lookupF] using hj4
    · simpa [Payer.fields, lookupF] using hj5
    · simpa [Payer.fields, lookupF] using hj6
    · simpa [Payer.fields, lookupF] using hj7

theorem rt_AuthorizationStatusDetails : RT AuthorizationStatusDetails.wfJson AuthorizationStatusDetails.fromJson AuthorizationStatusDetails.toJson := by
  refine ⟨fun x => rfl, rfl, ?_⟩
  intro j hwf
  obtain ⟨kvs, rfl, hdk, hp⟩ := wfStruct_elim hwf
  simp only [Bool.and_eq_true, List.all_eq_true] at hp
  obtain ⟨hkeys, h1⟩ := hp
  obtain ⟨x1, hd1, hj1⟩ := reqField_rt rt_AuthorizationStatusDetailsReason h1
  refine ⟨AuthorizationStatusDetails.mk x1, by simp [AuthorizationStatusDetails.fromJson, hd1], ?_⟩
  apply jeq_obj_fields AuthorizationStatusDetails.jsonKeys ?hfd hdk ?hdecl hkeys ?h
  case hfd => simp [AuthorizationStatusDetails.fields, distinctF, keyMemF]
  case hdecl =>
    intro s hs
    simp [AuthorizationStatusDetails.fields, keyMemF] at hs
    rcases hs with rfl
    simp [keyIn, AuthorizationStatusDetails.jsonKeys]
  case h =>
    intro k hk
    simp [keyIn, AuthorizationStatusDetails.jsonKeys] at hk
    rcases hk with rfl
    · simpa [AuthorizationStatusDetails.fields, lookupF] using hj1

theorem rt_AuthorizationWithData : RT AuthorizationWithData.wfJson AuthorizationWithData.fromJson AuthorizationWithData.toJson := by
  refine ⟨fun x => rfl, rfl, ?_⟩
  intro j hwf
  obtain ⟨kvs, rfl, hdk, hp⟩ := wfStruct_elim hwf
  simp only [Bool.and_eq_true, List.all_eq_true] at hp
  obtain ⟨hkeys, h1, h2⟩ := hp
  obtain ⟨x1, hd1, hj1⟩ := reqField_rt rt_AuthorizationStatus h1
  obtain ⟨x2, hd2, hj2⟩ := reqField_rt rt_AuthorizationStatusDetails h2
  refine ⟨AuthorizationWithData.mk x1 x2, by simp [AuthorizationWithData.fromJson, hd1, hd2], ?_⟩
  apply jeq_obj_fields AuthorizationWithData.jsonKeys ?hfd hdk ?hdecl hkeys ?h
  case hfd => simp [AuthorizationWithData.fields, distinctF, keyMemF]
  case hdecl =>
    intro s hs
    simp [AuthorizationWithData.fields, keyMemF] at hs
    rcases hs with rfl | rfl <;> simp [keyIn, AuthorizationWithData.jsonKeys]
  case h =>
    intro k hk
    simp [keyIn, AuthorizationWithData.jsonKeys] at hk
    rcases hk with rfl | rfl
    · simpa [AuthorizationWithData.fields, lookupF] using hj1
    · simpa [AuthorizationWithData.fields, lookupF] using hj2

theorem rt_CaptureStatusDetails : RT CaptureStatusDetails.wfJson CaptureStatusDetails.fromJson CaptureStatusDetails.toJson := by
  refine ⟨fun x => rfl, rfl, ?_⟩
  intro j hwf
  obtain ⟨kvs, rfl, hdk, hp⟩ := wfStruct_elim hwf
  simp only [Bool.and_eq_true, List.all_eq_true] at hp
  obtain ⟨hkeys, h1⟩ := hp
  obtain ⟨x1, hd1, hj1⟩ := reqField_rt rt_CaptureStatusDetailsReason h1
  refine ⟨CaptureStatusDetails.mk x1, by simp [CaptureStatusDetails.fromJson, hd1], ?_⟩
  apply jeq_obj_fields CaptureStatusDetails.jsonKeys ?hfd hdk ?hdecl hkeys ?h
  case hfd => simp [CaptureStatusDetails.fields, distinctF, keyMemF]
  case hdecl =>
    intro s hs
    simp [CaptureStatusDetails.fields, keyMemF] at hs
    rcases hs with rfl
    simp [keyIn, CaptureStatusDetails.jsonKeys]
  case h =>
    intro k hk
    simp [keyIn, CaptureStatusDetails.jsonKeys] at hk
    rcases hk with rfl
    · simpa [CaptureStatusDetails.fields, lookupF] using hj1

theorem rt_Capture : RT Capture.wfJson Capture.fromJson Capture.toJson := by
  refine ⟨fun x => rfl, rfl, ?_⟩
  intro j hwf
  obtain ⟨kvs, rfl, hdk, hp⟩ := wfStruct_elim hwf
  simp only [Bool.and_eq_true, List.all_eq_true] at hp
  obtain ⟨hkeys, h1, h2⟩ := hp
  obtain ⟨x1, hd1, hj1⟩ := reqField_rt rt_CaptureStatus h1
  obtain ⟨x2, hd2, hj2⟩ := optField_rt rt_CaptureStatusDetails h2
  refine ⟨Capture.mk x1 x2, by simp [Capture.fromJson, hd1, hd2], ?_⟩
  apply jeq_obj_fields Capture.jsonKeys ?hfd hdk ?hdecl hkeys ?h
  case hfd => simp [Capture.fields, distinctF, keyMemF]
  case hdecl =>
    intro s hs
    simp [Capture.fields, keyMemF] at hs
    rcases hs with rfl | rfl <;> simp [keyIn, Capture.jsonKeys]
  case h =>
    intro k hk
    simp [keyIn, Capture.jsonKeys] at hk
    rcases hk with rfl | rfl
    · simpa [Capture.fields, lookupF] using hj1
    · simpa [Capture.fields, lookupF] using hj2

theorem rt_RefundStatusDetails : RT RefundStatusDetails.wfJson RefundStatusDetails.fromJson RefundStatusDetails.toJson := by
  refine ⟨fun x => rfl, rfl, ?_⟩
  intro j hwf
  obtain ⟨kvs, rfl, hdk, hp⟩ := wfStruct_elim hwf
  simp only [Bool.and_eq_true, List.all_eq_true] at hp
  obtain ⟨hkeys, h1⟩ := hp
  obtain ⟨x1, hd1, hj1⟩ := reqField_rt rt_RefundStatusDetailsReason h1
  refine ⟨RefundStatusDetails.mk x1, by simp [RefundStatusDetails.fromJson, hd1], ?_⟩
  apply jeq_obj_fields RefundStatusDetails.jsonKeys ?hfd hdk ?hdecl hkeys ?h
  case hfd => simp [RefundStatusDetails.fields, distinctF, keyMemF]
  case hdecl =>
    intro s hs
    simp [RefundStatusDetails.fields, keyMemF] at hs
    rcases hs with rfl
    simp [keyIn, RefundStatusDetails.jsonKeys]
  case h =>
    intro k hk
    simp [keyIn, RefundStatusDetails.jsonKeys] at hk
    rcases hk with rfl
    · simpa [RefundStatusDetails.fields, lookupF] using hj1

theorem rt_Refund : RT Refund.wfJson Refund.fromJson Refund.toJson := by
  refine ⟨fun x => rfl, rfl, ?_⟩
  intro j hwf
  obtain ⟨kvs, rfl, hdk, hp⟩ := wfStruct_elim hwf
  simp only [Bool.and_eq_true, List.all_eq_true] at hp
  obtain ⟨hkeys, h1, h2⟩ := hp
  obtain ⟨x1, hd1, hj1⟩ := reqField_rt rt_RefundStatus h1
  obtain ⟨x2, hd2, hj2⟩ := reqField_rt rt_RefundStatusDetails h2
  refine ⟨Refund.mk x1 x2, by simp [Refund.fromJson, hd1, hd2], ?_⟩
  apply jeq_obj_fields Refund.jsonKeys ?hfd hdk ?hdecl hkeys ?h
  case hfd => simp [Refund.fields, distinctF, keyMemF]
  case hdecl =>
    intro s hs
    simp [Refund.fields, keyMemF] at hs
    rcases hs with rfl | rfl <;> simp [keyIn, Refund.jsonKeys]
  case h =>
    intro k hk
    simp [keyIn, Refund.jsonKeys] at hk
    rcases hk with rfl | rfl
    · simpa [Refund.fields, lookupF] using hj1
    · simpa [Refund.fields, lookupF] using hj2

theorem rt_PaymentCollection : RT PaymentCollection.wfJson PaymentCollection.fromJson PaymentCollection.toJson := by
  refine ⟨fun x => rfl, rfl, ?_⟩
  intro j hwf
  obtain ⟨kvs, rfl, hdk, hp⟩ := wfStruct_elim hwf
  simp only [Bool.and_eq_true, List.all_eq_true] at hp
  obtain ⟨hkeys, h1, h2, h3⟩ := hp
  obtain ⟨x1, hd1, hj1⟩ := dfltField_rt (rt_arr rt_AuthorizationWithData) [] h1
  obtain ⟨x2, hd2, hj2⟩ := dfltField_rt (rt_arr rt_Capture) [] h2
  obtain ⟨x3, hd3, hj3⟩ := dfltField_rt (rt_arr rt_Refund) [] h3
  refine ⟨PaymentCollection.mk x1 x2 x3, by simp [PaymentCollection.fromJson, hd1, hd2, hd3], ?_⟩
  apply jeq_obj_fields PaymentCollection.jsonKeys ?hfd hdk ?hdecl hkeys ?h
  case hfd => simp [PaymentCollection.fields, distinctF, keyMemF]
  case hdecl =>
    intro s hs
    simp [PaymentCollection.fields, keyMemF] at hs
    rcases hs with rfl | rfl | rfl <;> simp [keyIn, PaymentCollection.jsonKeys]
  case h =>
    intro k hk
    simp [keyIn, PaymentCollection.jsonKeys] at hk
    rcases hk with rfl | rfl | rfl
    · simpa [PaymentCollection.fields, lookupF] using hj1
    · simpa [PaymentCollection.fields, lookupF] using hj2
    · simpa [PaymentCollection.fields, lookupF] using hj3

theorem rt_PurchaseUnit : RT PurchaseUnit.wfJson PurchaseUnit.fromJson PurchaseUnit.toJson := by
  refine ⟨fun x => rfl, rfl, ?_⟩
  intro j hwf
  obtain ⟨kvs, rfl, hdk, hp⟩ := wfStruct_elim hwf
  simp only [Bool.and_eq_true, List.all_eq_true] at hp
  obtain ⟨hkeys, h1, h2, h3, h4, h5, h6, h7, h8, h9, h10, h11, h12⟩ := hp
  obtain ⟨x1, hd1, hj1⟩ := optField_rt rt_str h1
  obtain ⟨x2, hd2, hj2⟩ := reqField_rt rt_Amount h2
  obtain ⟨x3, hd3, hj3⟩ := optField_rt rt_Payee h3
  obtain ⟨x4, hd4, hj4⟩ := optField_rt rt_PaymentInstruction h4
  obtain ⟨x5, hd5, hj5⟩ := optField_rt rt_str h5
  obtain ⟨x6, hd6, hj6⟩ := optField_rt rt_str h6
  obtain ⟨x7, hd7, hj7⟩ := optField_rt rt_str h7
  obtain ⟨x8, hd8, hj8⟩ := optField_rt rt_str h8
  obtain ⟨x9, hd9, hj9⟩ := optField_rt rt_str h9
  obtain ⟨x10, hd10, hj10⟩ := optField_rt (rt_arr rt_Item) h10
  obtain ⟨x11, hd11, hj11⟩ := optField_rt rt_ShippingDetail h11
  obtain ⟨x12, hd12, hj12⟩ := optField_rt rt_PaymentCollection h12
  refine ⟨PurchaseUnit.mk x1 x2 x3 x4 x5 x6 x7 x8 x9 x10 x11 x12, by simp [PurchaseUnit.fromJson, hd1, hd2, hd3, hd4, hd5, hd6, hd7, hd8, hd9, hd10, hd11, hd12], ?_⟩
  apply jeq_obj_fields PurchaseUnit.jsonKeys ?hfd hdk ?hdecl hkeys ?h
  case hfd => simp [PurchaseUnit.fields, distinctF, keyMemF]
  case hdecl =>
    intro s hs
    simp [PurchaseUnit.fields, keyMemF] at hs
    rcases hs with rfl | rfl | rfl | rfl | rfl | rfl | rfl | rfl | rfl | rfl | rfl | rfl <;> simp [keyIn, PurchaseUnit.jsonKeys]
  case h =>
    intro k hk
    simp [keyIn, PurchaseUnit.jsonKeys] at hk
    rcases hk with rfl | rfl | rfl | rfl | rfl | rfl | rfl | rfl | rfl | rfl | rfl | rfl
    · simpa [PurchaseUnit.fields, lookupF] using hj1
    · simpa [PurchaseUnit.fields, lookupF] using hj2
    · simpa [PurchaseUnit.fields, lookupF] using hj3
    · simpa [PurchaseUnit.fields, lookupF] using hj4
    · simpa [PurchaseUnit.fields, lookupF] using hj5
    · simpa [PurchaseUnit.fields, lookupF] using hj6
    · simpa [PurchaseUnit.fields, lookupF] using hj7
    · simpa [PurchaseUnit.fields, lookupF] using hj8
    · simpa [PurchaseUnit.fields, lookupF] using hj9
    · simpa [PurchaseUnit.fields, lookupF] using hj10
    · simpa [PurchaseUnit.fields, lookupF] using hj11
    · simpa [PurchaseUnit.fields, lookupF] using hj12

theorem rt_CardResponse : RT CardResponse.wfJson CardResponse.fromJson CardResponse.toJson := by
  refine ⟨fun x => rfl, rfl, ?_⟩
  intro j hwf
  obtain ⟨kvs, rfl, hdk, hp⟩ := wfStruct_elim hwf
  simp only [Bool.and_eq_true, List.all_eq_true] at hp
  obtain ⟨hkeys, h1, h2, h3⟩ := hp
  obtain ⟨x1, hd1, hj1⟩ := reqField_rt rt_str h1
  obtain ⟨x2, hd2, hj2⟩ := reqField_rt rt_CardBrand h2
  obtain ⟨x3, hd3, hj3⟩ := reqField_rt rt_CardType h3
  refine ⟨CardResponse.mk x1 x2 x3, by simp [CardResponse.fromJson, hd1, hd2, hd3], ?_⟩
  apply jeq_obj_fields CardResponse.jsonKeys ?hfd hdk ?hdecl hkeys ?h
  case hfd => simp [CardResponse.fields, distinctF, keyMemF]
  case hdecl =>
    intro s hs
    simp [CardResponse.fields, keyMemF] at hs
    rcases hs with rfl | rfl | rfl <;> simp [keyIn, CardResponse.jsonKeys]
  case h =>
    intro k hk
    simp [keyIn, CardResponse.jsonKeys] at hk
    rcases hk with rfl | rfl | rfl
    · simpa [CardResponse.fields, lookupF] using hj1
    · simpa [CardResponse.fields, lookupF] using hj2
    · simpa [CardResponse.fields, lookupF] using hj3

theorem rt_WalletResponse : RT WalletResponse.wfJson WalletResponse.fromJson WalletResponse.toJson := by
  refine ⟨fun x => rfl, rfl, ?_⟩
  intro j hwf
  obtain ⟨kvs, rfl, hdk, hp⟩ := wfStruct_elim hwf
  simp only [Bool.and_eq_true, List.all_eq_true] at hp
  obtain ⟨hkeys, h1⟩ := hp
  obtain ⟨x1, hd1, hj1⟩ := reqField_rt rt_CardResponse h1
  refine ⟨WalletResponse.mk x1, by simp [WalletResponse.fromJson, hd1], ?_⟩
  apply jeq_obj_fields WalletResponse.jsonKeys ?hfd hdk ?hdecl hkeys ?h
  case hfd => simp [WalletResponse.fields, distinctF, keyMemF]
  case hdecl =>
    intro s hs
    simp [WalletResponse.fields, keyMemF] at hs
    rcases hs with rfl
    simp [keyIn, WalletResponse.jsonKeys]
  case h =>
    intro k hk
    simp [keyIn, WalletResponse.jsonKeys] at hk
    rcases hk with rfl
    · simpa [WalletResponse.fields, lookupF] using hj1

theorem rt_PaymentSourceResponse : RT PaymentSourceResponse.wfJson PaymentSourceResponse.fromJson PaymentSourceResponse.toJson := by
  refine ⟨fun x => rfl, rfl, ?_⟩
  intro j hwf
  obtain ⟨kvs, rfl, hdk, hp⟩ := wfStruct_elim hwf
  simp only [Bool.and_eq_true, List.all_eq_true] at hp
  obtain ⟨hkeys, h1, h2⟩ := hp
  obtain ⟨x1, hd1, hj1⟩ := optFieldNullable_rt rt_CardResponse h1
  obtain ⟨x2, hd2, hj2⟩ := optFieldNullable_rt rt_WalletResponse h2
  refine ⟨PaymentSourceResponse.mk x1 x2, by simp [PaymentSourceResponse.fromJson, hd1, hd2], ?_⟩
  apply jeq_obj_fields PaymentSourceResponse.jsonKeys ?hfd hdk ?hdecl hkeys ?h
  case hfd => simp [PaymentSourceResponse.fields, distinctF, keyMemF]
  case hdecl =>
    intro s hs
    simp [PaymentSourceResponse.fields, keyMemF] at hs
    rcases hs with rfl | rfl <;> simp [keyIn, PaymentSourceResponse.jsonKeys]
  case h =>
    intro k hk
    simp [keyIn, PaymentSourceResponse.jsonKeys] at hk
    rcases hk with rfl | rfl
    · simpa [PaymentSourceResponse.fields, lookupF] using hj1
    · simpa [PaymentSourceResponse.fields, lookupF] using hj2

theorem rt_Order : RT Order.wfJson Order.fromJson Order.toJson := by
  refine ⟨fun x => rfl, rfl, ?_⟩
  intro j hwf
  obtain ⟨kvs, rfl, hdk, hp⟩ := wfStruct_elim hwf
  simp only [Bool.and_eq_true, List.all_eq_true] at hp
  obtain ⟨hkeys, h1, h2, h3, h4, h5, h6, h7, h8, h9⟩ := hp
  obtain ⟨x1, hd1, hj1⟩ := optField_rt rt_str h1
  obtain ⟨x2, hd2, hj2⟩ := optField_rt rt_str h2
  obtain ⟨x3, hd3, hj3⟩ := reqField_rt rt_str h3
  obtain ⟨x4, hd4, hj4⟩ := optField_rt rt_PaymentSourceResponse h4
  obtain ⟨x5, hd5, hj5⟩ := optField_rt rt_Intent h5
  obtain ⟨x6, hd6, hj6⟩ := optField_rt rt_Payer h6
  obtain ⟨x7, hd7, hj7⟩ := optField_rt (rt_arr rt_PurchaseUnit) h7
  obtain ⟨x8, hd8, hj8⟩ := reqField_rt rt_OrderStatus h8
  obtain ⟨x9, hd9, hj9⟩ := reqField_rt (rt_arr rt_LinkDescription) h9
  refine ⟨Order.mk x1 x2 x3 x4 x5 x6 x7 x8 x9, by simp [Order.fromJson, hd1, hd2, hd3, hd4, hd5, hd6, hd7, hd8, hd9], ?_⟩
  apply jeq_obj_fields Order.jsonKeys ?hfd hdk ?hdecl hkeys ?h
  case hfd => simp [Order.fields, distinctF, keyMemF]
  case hdecl =>
    intro s hs
    simp [Order.fields, keyMemF] at hs
    rcases hs with rfl | rfl | rfl | rfl | rfl | rfl | rfl | rfl | rfl <;> simp [keyIn, Order.jsonKeys]
  case h =>
    intro k hk
    simp [keyIn, Order.jsonKeys] at hk
    rcases hk with rfl | rfl | rfl | rfl | rfl | rfl | rfl | rfl | rfl
    · simpa [Order.fields, lookupF] using hj1
    · simpa [Order.fields, lookupF] using hj2
    · simpa [Order.fields, lookupF] using hj3
    · simpa [Order.fields, lookupF] using hj4
    · simpa [Order.fields, lookupF] using hj5
    · simpa [Order.fields, lookupF] using hj6
    · simpa [Order.fields, lookupF] using hj7
    · simpa [Order.fields, lookupF] using hj8
    · simpa [Order.fields, lookupF] using hj9

/-! ### Claim theorems -/

/-- C1: the claim states that the PATCH body of `update_order` contains one
replace operation per supplied purchase unit, keyed by its reference id.
The code instead drops the built operations through variable shadowing
(orders.rs lines 795-819): with one purchase unit and no intent the body is
the empty JSON array, with an intent the body is identical whether or not
units are supplied, while the discarded loop output is non-empty. -/
theorem c1_update_order_units_dropped :
    update_order_body none (some [samplePurchaseUnit]) = "[]" ∧
    update_order_body (some Intent.Capture) (some [samplePurchaseUnit]) =
      update_order_body (some Intent.Capture) none ∧
    build_units_json [samplePurchaseUnit] ≠ "" ∧
    jsonParse (update_order_body none (some [samplePurchaseUnit])) = some (Json.arr []) :=
  ⟨rfl, rfl, by decide, rfl⟩

set_option maxRecDepth 8192 in
/-- C2: `update_order` with `intent = Capture` and no purchase units issues a
PATCH whose body is a single-element JSON array holding exactly one replace
operation at path `/intent` with value `"CAPTURE"`. -/
theorem c2_update_order_intent_only_body :
    (∀ base id,
      (update_order_request base id (some Intent.Capture) none).method = HttpMethod.PATCH ∧
      (update_order_request base id (some Intent.Capture) none).body =
        some (update_order_body (some Intent.Capture) none)) ∧
    jsonParse (update_order_body (some Intent.Capture) none) =
      some (Json.arr [Json.obj [("op", Json.str "replace"),
                                ("path", Json.str "/intent"),
                                ("value", Json.str "CAPTURE")]]) :=
  ⟨fun _ _ => ⟨rfl, rfl⟩, rfl⟩

/-- C3 (counterexample): the claim states that `Refund`, like `Capture`,
deserializes from a payload with a valid status and no status-details field;
but `Refund.status_details` is not an `Option` in the source
(orders.rs lines 392-399), so `{"status":"PENDING"}` fails to decode. -/
theorem c3_refund_missing_status_details_cex :
    Refund.fromJson (Json.obj [("status", Json.str "PENDING")]) = none := rfl

/-- C3 (amended): `Capture` carries an optional status-detail record, and a
payload with a valid status and no status-details member decodes with the
detail absent; `Refund` and `AuthorizationWithData` declare the
status-details record as required, and deserialization fails when the member
is missing. -/
theorem c3_capture_optional_refund_auth_required :
    (∀ kvs st, reqField kvs "status" CaptureStatus.fromJson = some st →
        lookupJ "status_details" kvs = none →
        Capture.fromJson (Json.obj kvs) = some (Capture.mk st none)) ∧
    (∀ kvs, lookupJ "status_details" kvs = none →
        Refund.fromJson (Json.obj kvs) = none) ∧
    (∀ kvs, lookupJ "status_details" kvs = none →
        AuthorizationWithData.fromJson (Json.obj kvs) = none) := by
  refine ⟨?_, ?_, ?_⟩
  · intro kvs st h1 h2
    simp [Capture.fromJson, h1, optField, h2]
  · intro kvs h
    simp only [Refund.fromJson]
    rcases h1 : reqField kvs "status" RefundStatus.fromJson with _ | st
    · simp [h1]
    · simp [h1, reqField, h]
  · intro kvs h
    simp only [AuthorizationWithData.fromJson]
    rcases h1 : reqField kvs "status" AuthorizationStatus.fromJson with _ | st
    · simp [h1]
    · simp [h1, reqField, h]

/-- C3 (witness): the amended claim at `{"status":"PENDING"}` for each of the
three types. -/
theorem c3_capture_optional_refund_auth_required_witness :
    Capture.fromJson (Json.obj [("status", Json.str "PENDING")]) =
      some (Capture.mk CaptureStatus.Pending none) ∧
    Refund.fromJson (Json.obj [("status", Json.str "PENDING")]) = none ∧
    AuthorizationWithData.fromJson (Json.obj [("status", Json.str "PENDING")]) = none :=
  ⟨c3_capture_optional_refund_auth_required.1 [("status", Json.str "PENDING")]
      CaptureStatus.Pending rfl rfl,
   c3_capture_optional_refund_auth_required.2.1 [("status", Json.str "PENDING")] rfl,
   c3_capture_optional_refund_auth_required.2.2 [("status", Json.str "PENDING")] rfl⟩

/-- C4 (counterexample): the claim states `show_order_details` GETs exactly
`<endpoint>/v2/checkout/orders/{id}` with no trailing path segment; the code
reuses the three-segment format string with an empty sub-resource
(orders.rs lines 758, 871), producing a trailing slash. -/
theorem c4_show_order_details_url_cex :
    (show_order_details_request "https://api.sandbox.paypal.com" "5O190127TN364715T").url ≠
      "https://api.sandbox.paypal.com/v2/checkout/orders/5O190127TN364715T" := by
  decide

/-- C4 (amended): `show_order_details` sends a GET to
`<endpoint>/v2/checkout/orders/{id}/` — with a trailing slash from the empty
sub-resource segment — while `capture_order` and `authorize_order` send POSTs
to `<endpoint>/v2/checkout/orders/{id}/capture` and `.../authorize`. -/
theorem c4_order_endpoint_urls :
    ∀ (base order_id : String) (hp : HeaderParams),
      ((show_order_details_request base order_id).method = HttpMethod.GET ∧
       (show_order_details_request base order_id).url =
         base ++ "/v2/checkout/orders/" ++ order_id ++ "/") ∧
      ((capture_order_request base order_id hp).method = HttpMethod.POST ∧
       (capture_order_request base order_id hp).url =
         base ++ "/v2/checkout/orders/" ++ order_id ++ "/capture") ∧
      ((authorize_order_request base order_id hp).method = HttpMethod.POST ∧
       (authorize_order_request base order_id hp).url =
         base ++ "/v2/checkout/orders/" ++ order_id ++ "/authorize") := by
  intro base order_id hp
  have hc : ("/" : String) ++ "capture" = "/capture" := by decide
  have ha : ("/" : String) ++ "authorize" = "/authorize" := by decide
  refine ⟨⟨rfl, ?_⟩, ⟨rfl, ?_⟩, ⟨rfl, ?_⟩⟩
  · simp [show_order_details_request, build_endpoint_order_request]
  · simp [capture_order_request, build_endpoint_order_request, String.append_assoc, hc]
  · simp [authorize_order_request, build_endpoint_order_request, String.append_assoc, ha]

/-- C5: `create_order` classifies responses by status: any 2xx decodes the
body as an `Order` and yields `Ok`; any other status yields the structured
`ApiError` variant holding the decoded provider error body, which is a
different constructor from the transport-failure variant. -/
theorem c5_create_order_response_classification :
    (∀ status body o, 200 ≤ status → status ≤ 299 → Order.fromJson body = some o →
        create_order_response status body = Except.ok o) ∧
    (∀ status body e, ¬(200 ≤ status ∧ status ≤ 299) →
        PaypalError.fromJson body = some e →
        create_order_response status body = Except.error (ResponseError.ApiError e) ∧
        ∀ msg, ResponseError.ApiError e ≠ ResponseError.HttpError msg) := by
  constructor
  · intro status body o h1 h2 hdec
    simp [create_order_response, is_success, h1, h2, hdec]
  · intro status body e hs hdec
    have hf : is_success status = false := by
      simp only [is_success, Bool.and_eq_false_iff, decide_eq_false_iff_not]
      omega
    exact ⟨by simp [create_order_response, hf, hdec], fun msg h => by cases h⟩

/-- C5 (witness): a simulated 201 with a well-formed `Order` body yields
`Ok` of the parsed structure; a simulated 422 with a provider error body
yields the `ApiError` variant. -/
theorem c5_create_order_response_classification_witness :
    create_order_response 201 orderFixture = Except.ok orderFixtureOrder ∧
    create_order_response 422 (Json.obj [("name", Json.str "UNPROCESSABLE_ENTITY")]) =
      Except.error (ResponseError.ApiError
        (PaypalError.mk [("name", Json.str "UNPROCESSABLE_ENTITY")])) :=
  ⟨c5_create_order_response_classification.1 201 orderFixture orderFixtureOrder
      (by decide) (by decide) rfl,
   (c5_create_order_response_classification.2 422
      (Json.obj [("name", Json.str "UNPROCESSABLE_ENTITY")])
      (PaypalError.mk [("name", Json.str "UNPROCESSABLE_ENTITY")])
      (by decide) rfl).1⟩

/-- C6: every schema-matching `Order` JSON document decodes, and re-encoding
the decoded value yields a document equivalent up to member ordering and the
omission of absent optional members; decoding fails when a required member
(`id`, `status`, or `links`) is missing. -/
theorem c6_order_json_roundtrip :
    (∀ j, Order.wfJson j = true →
        ∃ o, Order.fromJson j = some o ∧ jeq (Order.toJson o) j = true) ∧
    (∀ kvs, lookupJ "id" kvs = none → Order.fromJson (Json.obj kvs) = none) ∧
    (∀ kvs, lookupJ "status" kvs = none → Order.fromJson (Json.obj kvs) = none) ∧
    (∀ kvs, lookupJ "links" kvs = none → Order.fromJson (Json.obj kvs) = none) := by
  refine ⟨fun j h => rt_Order.2.2 j h, ?_, ?_, ?_⟩
  · intro kvs h
    simp [Order.fromJson, reqField, h]
  · intro kvs h
    simp [Order.fromJson, reqField, h]
  · intro kvs h
    simp [Order.fromJson, reqField, h]

/-- C6 (witness): the round trip at a concrete schema-matching document, and
decode failure at a document missing the required `id`. -/
theorem c6_order_json_roundtrip_witness :
    Order.wfJson orderFixture = true ∧
    (∃ o, Order.fromJson orderFixture = some o ∧ jeq (Order.toJson o) orderFixture = true) ∧
    Order.fromJson (Json.obj [("status", Json.str "CREATED")]) = none :=
  ⟨by decide,
   c6_order_json_roundtrip.1 orderFixture (by decide),
   c6_order_json_roundtrip.2.1 [("status", Json.str "CREATED")] rfl⟩

/-- C7: a verification response body with `verification_status` `"SUCCESS"`
decodes to the `Success` variant, `"FAILURE"` to `Failure`, and any other
string fails decoding. -/
theorem c7_verification_status_decoding :
    Verification.fromJson (Json.obj [("verification_status", Json.str "SUCCESS")]) =
      some (Verification.mk VerificationStatus.Success) ∧
    Verification.fromJson (Json.obj [("verification_status", Json.str "FAILURE")]) =
      some (Verification.mk VerificationStatus.Failure) ∧
    ∀ s, s ≠ "SUCCESS" → s ≠ "FAILURE" →
      Verification.fromJson (Json.obj [("verification_status", Json.str s)]) = none := by
  refine ⟨rfl, rfl, ?_⟩
  intro s h1 h2
  have e1 : VerificationStatus.token VerificationStatus.Success = "SUCCESS" := by decide
  have e2 : VerificationStatus.token VerificationStatus.Failure = "FAILURE" := by decide
  have n1 : ¬("SUCCESS" = s) := fun h => h1 h.symm
  have n2 : ¬("FAILURE" = s) := fun h => h2 h.symm
  simp [Verification.fromJson, reqField, lookupJ, VerificationStatus.fromJson, decTok,
        VerificationStatus.tokenTable, assocTok, e1, e2, n1, n2]

/-- C7 (witness): decoding rejects the token `"BANANA"`. -/
theorem c7_verification_status_decoding_witness :
    Verification.fromJson (Json.obj [("verification_status", Json.str "BANANA")]) = none :=
  c7_verification_status_decoding.2.2 "BANANA" (by decide) (by decide)

/-- C8: the claim states that every enum serializes each variant to its
upper-snake-case token.  That holds for the `rename_all`-annotated enums with
camel-case variant names (`Intent`, `OrderStatus`, `CaptureStatus`, ...), but
`DisbursementMode` (orders.rs lines 179-187) carries no `rename_all`
attribute, so its variants serialize verbatim as `"Instant"`/`"Delayed"`,
and `TaxIdType`'s already-underscored variant names are mangled by the serde
rename rule to `"B_R__C_P_F"`/`"B_R__C_N_P_J"` instead of `"BR_CPF"`. -/
theorem c8_enum_token_tables :
    Intent.token Intent.Capture = "CAPTURE" ∧
    OrderStatus.token OrderStatus.Completed = "COMPLETED" ∧
    CaptureStatus.token CaptureStatus.PartiallyRefunded = "PARTIALLY_REFUNDED" ∧
    DisbursementMode.toJson DisbursementMode.Instant = Json.str "Instant" ∧
    DisbursementMode.token DisbursementMode.Instant ≠ "INSTANT" ∧
    screamingSnake "Instant" = "INSTANT" ∧
    TaxIdType.token TaxIdType.BR_CPF = "B_R__C_P_F" ∧
    TaxIdType.token TaxIdType.BR_CPF ≠ "BR_CPF" :=
  ⟨by decide, by decide, by decide, rfl, by decide, by decide, by decide, by decide⟩

/-- C9: `update_order` with neither intent nor purchase units still issues a
PATCH to `/v2/checkout/orders/{id}`, whose body is exactly the empty JSON
array. -/
theorem c9_update_order_empty_patch :
    ∀ base id,
      (update_order_request base id none none).method = HttpMethod.PATCH ∧
      (update_order_request base id none none).url = base ++ "/v2/checkout/orders/" ++ id ∧
      (update_order_request base id none none).body = some "[]" :=
  fun _ _ => ⟨rfl, rfl, rfl⟩

/-- C10: the request `verify_signature` assembles is the same for every value
of the caller-supplied `header_params` argument — the source never reads it —
and the `HeaderParams` handed to `setup_headers` force the
`application/json` content type. -/
theorem c10_verify_signature_ignores_header_params :
    ∀ (base : String) (signature : WebhookVerificationPayload) (hp1 hp2 : HeaderParams),
      verify_signature_request base signature hp1 =
        verify_signature_request base signature hp2 ∧
      (verify_signature_request base signature hp1).header_params.content_type =
        some "application/json" :=
  fun _ _ _ _ => ⟨rfl, rfl⟩
